import Mathlib

/-!
# freetype-wasm: the binding layer of `src/ft.cpp`

A shallow embedding of the repository-authored logic of `ft.cpp`:

* the two name-keyed tables (`face_map`, `face_ptrs`) and the active face (`current_face`),
  with `LoadFontFromBytes`, `UnloadFont`, `SetFont`;
* the operations guarded by `current_face == NULL`;
* the character walk of `LoadChars` / `LoadCharsFrom`;
* the marshaling getters `ImageData_Getter` and `Encoding_Getter`.

FreeType itself is an external collaborator: its entry points are fields of the structure
`FreeType`, and every definition of the binding takes such a structure as a parameter.

Modelling conventions.

* `std::map<K, V>` is an association list read through `StdMap.get?`; `operator[]` is
  `StdMap.index`, which inserts a value-initialised entry when the key is absent.
* A pointer of type `FT_Face` is `Option Face`: `none` is `NULL`, and `some face` carries the
  address (`id`), the fields of the pointee that the binding reads (`record`) and the byte
  buffer the face was opened on (`buf`).
* `malloc` and `FT_New_Memory_Face` hand out fresh addresses from the counters `next_ptr`
  and `next_face`; `free` and `FT_Done_Face` are logged in `freed` and `done`.
* A host callback is host code: besides returning a value it may call the exported
  functions, and the loop of `LoadChars` / `LoadCharsFrom` reads `current_face` anew on every
  iteration, after those calls have acted on the globals.
-/

namespace FreetypeWasm

/-! ## `std::map` -/

/-- An association list standing for a `std::map`. -/
abbrev StdMap (K V : Type) := List (K × V)

namespace StdMap

variable {K V : Type} [DecidableEq K]

/-- Lookup without insertion (`std::map::find`). -/
def get? : StdMap K V → K → Option V
  | [], _ => none
  | (k', v) :: m, k => if k' = k then some v else get? m k

/-- Assignment through a reference to the mapped value: the value under `k` becomes `v`. -/
def put : StdMap K V → K → V → StdMap K V
  | [], k, v => [(k, v)]
  | (k', v') :: m, k, v => if k' = k then (k, v) :: m else (k', v') :: put m k v

/-- Removal of a key (`std::map::erase(key)`). -/
def erase : StdMap K V → K → StdMap K V
  | [], _ => []
  | (k', v') :: m, k => if k' = k then erase m k else (k', v') :: erase m k

/-- The subscript `m[k]`: the mapped value, and the map after the subscript, which holds a
value-initialised entry (`dflt`) when `k` was absent. -/
def index (dflt : V) (m : StdMap K V) (k : K) : V × StdMap K V :=
  match get? m k with
  | some v => (v, m)
  | none => (dflt, put m k dflt)

end StdMap

/-! ## Data -/

/-- A byte pointer returned by `malloc` (`FT_Bytes`), as an address. -/
abbrev FT_Bytes := Nat

/-- The argument of `LoadFontFromBytes`: `std::vector<unsigned char>`. -/
abbrev FontBytes := List UInt8

/-- The record `FT_CharMapRec`, fields exported by the binding. -/
structure FT_CharMapRec where
  encoding : Nat
  platform_id : Nat
  encoding_id : Nat
  deriving DecidableEq, Repr

/-- The record `FT_FaceRec`, restricted to the fields the binding reads. -/
structure FT_FaceRec where
  num_faces : Int
  face_index : Int
  family_name : String
  style_name : String
  num_charmaps : Int
  charmaps : List FT_CharMapRec
  deriving DecidableEq, Repr

/-- The pointee of a non-null `FT_Face`: its address, its record, and the byte buffer that was
handed to `FT_New_Memory_Face` when it was opened. -/
structure Face where
  id : Nat
  record : FT_FaceRec
  buf : FT_Bytes
  deriving DecidableEq, Repr

/-- The pointer type `FT_Face`; `none` is `NULL`. -/
abbrev FT_Face := Option Face

/-- The record `FT_Size_Metrics`. -/
structure FT_Size_Metrics where
  x_ppem : Nat
  y_ppem : Nat
  x_scale : Int
  y_scale : Int
  ascender : Int
  descender : Int
  height : Int
  max_advance : Int
  deriving DecidableEq, Repr

/-- The record `FT_Vector`. -/
structure FT_Vector where
  x : Int
  y : Int
  deriving DecidableEq, Repr

/-- The record `FT_Bitmap`; `buffer` is the memory `v.buffer` points to, read by offset. -/
structure FT_Bitmap where
  rows : Nat
  width : Nat
  pitch : Int
  buffer : Nat → UInt8
  num_grays : Nat
  pixel_mode : Nat

/-- The record `FT_GlyphSlotRec`, by the fields the callback can observe. -/
structure FT_GlyphSlotRec where
  glyph_index : Nat
  bitmap_rows : Nat
  bitmap_pitch : Int
  bitmap_left : Int
  bitmap_top : Int
  deriving DecidableEq, Repr

/-- The FreeType entry points the binding calls. `none` / `true` in an error position stands
for a non-zero `FT_Error`. -/
structure FreeType where
  /-- `FT_New_Memory_Face(library, ptr, size, face_index, &face)` on the given bytes. -/
  FT_New_Memory_Face : FontBytes → Int → Option FT_FaceRec
  /-- `FT_Set_Char_Size`: error flag and `face->size->metrics` after the call. -/
  FT_Set_Char_Size : Face → Int → Int → Nat → Nat → Bool × FT_Size_Metrics
  /-- `FT_Set_Pixel_Sizes`: error flag and `face->size->metrics` after the call. -/
  FT_Set_Pixel_Sizes : Face → Nat → Nat → Bool × FT_Size_Metrics
  /-- `FT_Select_Charmap`: error flag. -/
  FT_Select_Charmap : Face → Nat → Bool
  /-- `FT_Set_Charmap`: error flag. -/
  FT_Set_Charmap : Face → FT_CharMapRec → Bool
  /-- `FT_Get_First_Char`: character code and glyph index. -/
  FT_Get_First_Char : Face → Nat × Nat
  /-- `FT_Get_Next_Char`: character code and glyph index. -/
  FT_Get_Next_Char : Face → Nat → Nat × Nat
  /-- `FT_Load_Char`: `none` on error, otherwise `*face->glyph` after the call. -/
  FT_Load_Char : Face → Nat → Int → Option FT_GlyphSlotRec
  /-- `FT_Get_Kerning`: error flag and the vector written. -/
  FT_Get_Kerning : Face → Nat → Nat → Nat → Bool × FT_Vector

/-- `FamilyName -> StyleName -> FT_Face`. -/
abbrev FaceMap := StdMap String (StdMap String FT_Face)

/-- `FamilyName -> Byte arrays`. -/
abbrev PtrMap := StdMap String (List FT_Bytes)

/-- The globals of `ft.cpp` together with the allocation bookkeeping. -/
structure State where
  inited : Bool
  library_done : Bool
  current_face : FT_Face
  face_map : FaceMap
  face_ptrs : PtrMap
  next_ptr : Nat
  next_face : Nat
  freed : List FT_Bytes
  done : List Nat
  deriving DecidableEq

/-- The state at program start. -/
def State.initial : State :=
  { inited := false, library_done := false, current_face := none, face_map := [],
    face_ptrs := [], next_ptr := 0, next_face := 0, freed := [], done := [] }

/-- The face a `(family, style)` pair maps to, read without inserting; `none` when the pair
has no entry or maps to `NULL`. -/
def loadedFace (fm : FaceMap) (family style : String) : FT_Face :=
  match StdMap.get? fm family with
  | none => none
  | some styles =>
    match StdMap.get? styles style with
    | none => none
    | some p => p

/-- The byte arrays recorded under a family name, read without inserting. -/
def buffersOf (fp : PtrMap) (family : String) : List FT_Bytes :=
  (StdMap.get? fp family).getD []

/-! ## Library lifetime -/

/-- `Init()`. -/
def Init (s : State) : State :=
  if !s.inited then { s with inited := true } else s

/-- `Cleanup()`. -/
def Cleanup (s : State) : State :=
  if s.inited then { s with library_done := true } else s

/-! ## Loading and unloading -/

/-- `::free((void *)ptr)`. -/
def free (s : State) (ptr : FT_Bytes) : State :=
  { s with freed := s.freed ++ [ptr] }

/-- `FT_Done_Face(face)`; on `NULL` FreeType only reports an error. -/
def FT_Done_Face (s : State) (face : FT_Face) : State :=
  match face with
  | none => s
  | some f => { s with done := s.done ++ [f.id] }

/-- `FT_New_Memory_Face(library, ptr, size, face_index, &ft_face)`: on success a face at a
fresh address. -/
def newMemoryFace (ft : FreeType) (s : State) (font : FontBytes) (ptr : FT_Bytes)
    (face_index : Int) : Option Face × State :=
  match ft.FT_New_Memory_Face font face_index with
  | none => (none, s)
  | some r => (some { id := s.next_face, record := r, buf := ptr },
               { s with next_face := s.next_face + 1 })

/-- The lvalue `face_map[family][style]`: its value, and the table after the two subscripts. -/
def faceMapIndex (fm : FaceMap) (family style : String) : FT_Face × FaceMap :=
  let (styles, fm1) := StdMap.index [] fm family
  let (p, styles1) := StdMap.index none styles style
  (p, StdMap.put fm1 family styles1)

/-- The statement `face_map[family][style] = face`. -/
def faceMapAssign (fm : FaceMap) (family style : String) (face : FT_Face) : FaceMap :=
  let (styles, fm1) := StdMap.index [] fm family
  StdMap.put fm1 family (StdMap.put styles style face)

/-- The statement `face_ptrs[family].push_back(ptr)`. -/
def facePtrsPush (fp : PtrMap) (family : String) (ptr : FT_Bytes) : PtrMap :=
  let (mems, fp1) := StdMap.index [] fp family
  StdMap.put fp1 family (mems ++ [ptr])

/-- The loop `for (int i = 0; i < num_faces; i++)` of `LoadFontFromBytes`, with `k` iterations
left and `rtn` the records pushed so far. -/
def loadFaces (ft : FreeType) (font : FontBytes) (ptr : FT_Bytes) :
    Nat → Nat → State → List FT_FaceRec → List FT_FaceRec × State
  | 0, _, s, rtn => (rtn, s)
  | k + 1, i, s, rtn =>
    match newMemoryFace ft s font ptr (i : Int) with
    | (none, s1) => (rtn, free s1 ptr)
    | (some ft_face, s1) =>
      let (p, fm1) := faceMapIndex s1.face_map ft_face.record.family_name ft_face.record.style_name
      let s2 := { s1 with face_map := fm1 }
      if p.isSome then
        (rtn, free (FT_Done_Face s2 (some ft_face)) ptr)
      else
        let s3 := if i = 0 then
            { s2 with face_ptrs := facePtrsPush s2.face_ptrs ft_face.record.family_name ptr }
          else s2
        let fm2 := faceMapAssign s3.face_map ft_face.record.family_name
          ft_face.record.style_name (some ft_face)
        let s4 := { s3 with face_map := fm2 }
        loadFaces ft font ptr k (i + 1) s4 (rtn ++ [ft_face.record])

/-- `LoadFontFromBytes(font)`: the returned vector and the state afterwards. -/
def LoadFontFromBytes (ft : FreeType) (s : State) (font : FontBytes) :
    List FT_FaceRec × State :=
  let ptr := s.next_ptr
  let s0 := Init { s with next_ptr := s.next_ptr + 1 }
  match newMemoryFace ft s0 font ptr (-1) with
  | (none, s1) => ([], free s1 ptr)
  | (some ft_face, s1) =>
    let num_faces := ft_face.record.num_faces
    let s2 := FT_Done_Face s1 (some ft_face)
    loadFaces ft font ptr num_faces.toNat 0 s2 []

/-- `UnloadFont(familyName)`. -/
def UnloadFont (s : State) (familyName : String) : State :=
  let cur : FT_Face :=
    match s.current_face with
    | none => none
    | some face => if face.record.family_name = familyName then none else some face
  let (faces, fm1) := StdMap.index [] s.face_map familyName
  let s1 := faces.foldl (fun st it => FT_Done_Face st it.2)
    { s with current_face := cur, face_map := fm1 }
  let s2 := { s1 with face_map := StdMap.erase s1.face_map familyName }
  let (mems, fp1) := StdMap.index [] s2.face_ptrs familyName
  let s3 := mems.foldl free { s2 with face_ptrs := fp1 }
  { s3 with face_ptrs := StdMap.erase s3.face_ptrs familyName }

/-- `SetFont(faceName, styleName)`: the returned record (`none` when `*current_face`
dereferences `NULL`) and the state afterwards. -/
def SetFont (s : State) (faceName styleName : String) : Option FT_FaceRec × State :=
  let (p, fm1) := faceMapIndex s.face_map faceName styleName
  let s1 := { s with current_face := p, face_map := fm1 }
  (s1.current_face.map (fun face => face.record), s1)

/-! ## Operations on the active face -/

/-- What a call does besides updating the globals. -/
inductive Event where
  /-- A message written by `fprintf(stderr, ...)`. -/
  | diag (msg : String)
  /-- A call of a FreeType function on `current_face`. -/
  | call (fn : String)
  /-- A read of a field through `current_face`. -/
  | read (field : String)
  /-- A call of the host callback `cb(*current_face->glyph, charcode, gindex)`. -/
  | invoke (slot : FT_GlyphSlotRec) (charcode gindex : Nat)
  deriving DecidableEq, Repr

/-- Events of a call and the value it returns; `result` is `none` when the source defines no
value: a read through `NULL`, or an uninitialised local. -/
structure Run (α : Type) where
  events : List Event
  result : Option α

/-- `SetCharSize(char_width, char_height, horz_resolution, vert_resolution)`. -/
def SetCharSize (ft : FreeType) (s : State) (char_width char_height : Int)
    (horz_resolution vert_resolution : Nat) : Run FT_Size_Metrics :=
  match s.current_face with
  | none =>
    -- `return current_face->size->metrics;` with `current_face == NULL`
    ⟨[.diag "FreeType: Unable to set size, font is not set. Use `SetFont` first.",
      .read "size"], none⟩
  | some face =>
    let (error, metrics) :=
      ft.FT_Set_Char_Size face char_width char_height horz_resolution vert_resolution
    if error then
      ⟨[.call "FT_Set_Char_Size", .diag "FreeType: Error setting size.\n", .read "size"],
        some metrics⟩
    else
      ⟨[.call "FT_Set_Char_Size", .read "size"], some metrics⟩

/-- `SetPixelSize(pixel_width, pixel_height)`. -/
def SetPixelSize (ft : FreeType) (s : State) (pixel_width pixel_height : Nat) :
    Run FT_Size_Metrics :=
  match s.current_face with
  | none =>
    -- `return current_face->size->metrics;` with `current_face == NULL`
    ⟨[.diag "FreeType: Unable to set size, font is not set. Use `SetFont` first.",
      .read "size"], none⟩
  | some face =>
    let (error, metrics) := ft.FT_Set_Pixel_Sizes face pixel_width pixel_height
    if error then
      ⟨[.call "FT_Set_Pixel_Sizes", .diag "FreeType: Error setting size.\n", .read "size"],
        some metrics⟩
    else
      ⟨[.call "FT_Set_Pixel_Sizes", .read "size"], some metrics⟩

/-- `SetCharmap(encoding)`. -/
def SetCharmap (ft : FreeType) (s : State) (encoding : Nat) : Run Bool :=
  match s.current_face with
  | none => ⟨[.diag "FreeType: Current font is not set. Unable to set charmap."], some false⟩
  | some face =>
    if ft.FT_Select_Charmap face encoding then
      ⟨[.call "FT_Select_Charmap", .diag "FreeType: Error selecting charmap.\n"], some false⟩
    else
      ⟨[.call "FT_Select_Charmap"], some true⟩

/-- The loop `for (int k = 0; k < current_face->num_charmaps; k++)` of `SetCharmapByIndex`
and the statements after it, with `n` iterations left. -/
def setCharmapLoop (ft : FreeType) (face : Face) (index : Int) : Nat → Nat → Run Bool
  | 0, _ => ⟨[.read "num_charmaps", .diag "Charmap not found with index '%d'.\n"], some false⟩
  | n + 1, k =>
    if (k : Int) = index then
      match face.record.charmaps.get? k with
      | none => ⟨[.read "num_charmaps", .read "charmaps"], none⟩
      | some cm =>
        if ft.FT_Set_Charmap face cm then
          ⟨[.read "num_charmaps", .read "charmaps", .call "FT_Set_Charmap",
            .diag "FreeType: Error setting charmap.\n"], some false⟩
        else
          ⟨[.read "num_charmaps", .read "charmaps", .call "FT_Set_Charmap"], some true⟩
    else
      let r := setCharmapLoop ft face index n (k + 1)
      ⟨.read "num_charmaps" :: r.events, r.result⟩

/-- `SetCharmapByIndex(index)`. -/
def SetCharmapByIndex (ft : FreeType) (s : State) (index : Int) : Run Bool :=
  match s.current_face with
  | none => ⟨[.diag "FreeType: Current font is not set. Unable to set charmap.\n"], some false⟩
  | some face => setCharmapLoop ft face index face.record.num_charmaps.toNat 0

/-- `GetKerning(left_glyph_index, right_glyph_index, kern_mode)`. -/
def GetKerning (ft : FreeType) (s : State) (left_glyph_index right_glyph_index kern_mode : Nat) :
    Run FT_Vector :=
  match s.current_face with
  | none =>
    -- `return vector;` with `vector` never written
    ⟨[.diag "FreeType: Current font is not set.\n"], none⟩
  | some face =>
    let (error, vector) := ft.FT_Get_Kerning face left_glyph_index right_glyph_index kern_mode
    if error then
      ⟨[.call "FT_Get_Kerning", .diag "Unable to read kerning.\n"], some vector⟩
    else
      ⟨[.call "FT_Get_Kerning"], some vector⟩

/-! ## Marshaling getters -/

/-- The arguments handed to the host constructor `ImageData(data, width, height)`. -/
structure ImageData where
  data : List UInt8
  width : Int
  height : Nat
  deriving DecidableEq

/-- The four stores of one iteration of the loop of `ImageData_Getter`; `i` is a `size_t`. -/
def rgbaStore (buffer : Nat → UInt8) (rgba : List UInt8) (i : Nat) : List UInt8 :=
  (((rgba.set ((i * 4 + 0) % 2 ^ 32) 0).set ((i * 4 + 1) % 2 ^ 32) 0).set
    ((i * 4 + 2) % 2 ^ 32) 0).set ((i * 4 + 3) % 2 ^ 32) (buffer i)

/-- `ImageData_Getter(v)`; `none` is the host value `null`. `size` is an `unsigned int`. -/
def ImageData_Getter (v : FT_Bitmap) : Option ImageData :=
  let width := v.pitch
  let height := v.rows
  let size := (v.rows * (v.pitch % 2 ^ 32).toNat) % 2 ^ 32
  if size = 0 then none
  else
    let rgba := List.replicate ((size * 4) % 2 ^ 32) (0 : UInt8)
    let rgba := (List.range size).foldl (rgbaStore v.buffer) rgba
    some { data := rgba, width := width, height := height }

/-- The constructor `std::string(const char *)`: the bytes before the first zero byte. -/
def cString (bytes : List Nat) : List Nat :=
  bytes.takeWhile (fun b => b != 0)

/-- `Encoding_Getter(v)`: the bytes of the returned `std::string`. -/
def Encoding_Getter (v : FT_CharMapRec) : List Nat :=
  let enc : List Nat :=
    [(v.encoding >>> (8 * 3)) &&& 0xff,
     (v.encoding >>> (8 * 2)) &&& 0xff,
     (v.encoding >>> (8 * 1)) &&& 0xff,
     (v.encoding >>> (8 * 0)) &&& 0xff,
     0]
  cString enc

/-! ## One iteration of the loading loop, by outcome -/

/-- The globals after an iteration of the loop of `LoadFontFromBytes` at index `i` that
registers `ft_face` (lines 82 to 92 of `ft.cpp`), started in `s`. -/
def registerFace (s : State) (i : Nat) (ft_face : Face) (ptr : FT_Bytes) : State :=
  { s with
    next_face := s.next_face + 1
    face_ptrs :=
      if i = 0 then facePtrsPush s.face_ptrs ft_face.record.family_name ptr else s.face_ptrs
    face_map :=
      faceMapAssign
        (faceMapIndex s.face_map ft_face.record.family_name ft_face.record.style_name).2
        ft_face.record.family_name ft_face.record.style_name (some ft_face) }

/-- The globals after an iteration of the loop of `LoadFontFromBytes` that finds the pair of
`ft_face` already loaded (lines 74 to 80 of `ft.cpp`), started in `s`. -/
def rejectFace (s : State) (ft_face : Face) (ptr : FT_Bytes) : State :=
  free (FT_Done_Face
    { s with
      next_face := s.next_face + 1
      face_map :=
        (faceMapIndex s.face_map ft_face.record.family_name ft_face.record.style_name).2 }
    (some ft_face)) ptr

/-- The globals when the loop of `LoadFontFromBytes` starts (lines 46 to 60 of `ft.cpp`):
the buffer is allocated, the library initialised, and the face opened at index -1 to read
`num_faces` is done again. -/
def afterProbe (s : State) (probe : Face) : State :=
  FT_Done_Face
    { Init { s with next_ptr := s.next_ptr + 1 } with next_face := s.next_face + 1 }
    (some probe)

/-! ## Sequences of calls -/

/-- A call of one of the exported functions. -/
inductive Call where
  | Init
  | Cleanup
  | LoadFontFromBytes (font : FontBytes)
  | UnloadFont (familyName : String)
  | SetFont (faceName styleName : String)
  | SetCharSize (char_width char_height : Int) (horz_resolution vert_resolution : Nat)
  | SetPixelSize (pixel_width pixel_height : Nat)
  | SetCharmap (encoding : Nat)
  | SetCharmapByIndex (index : Int)
  | LoadChars (load_flags : Int)
  | LoadCharsFrom (first_charcode : Nat) (load_flags : Int)
  | GetKerning (left_glyph_index right_glyph_index kern_mode : Nat)
  deriving DecidableEq

/-- The globals after a call. The functions from `SetCharSize` on assign none of them; the
calls a callback of `LoadChars` or `LoadCharsFrom` makes stand in the sequence as calls of
their own. -/
def exec (ft : FreeType) (s : State) : Call → State
  | .Init => Init s
  | .Cleanup => Cleanup s
  | .LoadFontFromBytes font => (LoadFontFromBytes ft s font).2
  | .UnloadFont familyName => UnloadFont s familyName
  | .SetFont faceName styleName => (SetFont s faceName styleName).2
  | _ => s

/-- The globals after a sequence of calls. -/
def run (ft : FreeType) (s : State) (calls : List Call) : State :=
  calls.foldl (exec ft) s

/-- The call may change which face is active: `SetFont`, or `UnloadFont` of `family`. -/
def Call.reselects (family : String) : Call → Bool
  | .SetFont _ _ => true
  | .UnloadFont familyName => familyName = family
  | _ => false

/-! ## The character walk -/

/-- The value a host callback returns, as far as `isFalse()` can tell values apart. -/
inductive JSVal where
  | undefined
  | null
  | boolean (b : Bool)
  | number (n : Int)
  deriving DecidableEq, Repr

/-- `emscripten::val::isFalse()`: the value is the JavaScript `false`. -/
def JSVal.isFalse : JSVal → Bool
  | .boolean false => true
  | _ => false

/-- A host callback (`emscripten::val cb`): it sees the glyph slot, the character code and
the glyph index, may keep state `H` of its own between invocations, and, being host code,
may call the exported functions while it runs. It gives the value it returns, its state
afterwards, and the calls into the module it made, in order. -/
abbrev Callback (H : Type) := H → FT_GlyphSlotRec → Nat → Nat → JSVal × H × List Call

/-- `FT_Load_Char(current_face, charcode, load_flags)`. On a null handle FreeType reports
`Invalid_Face_Handle`. -/
def loadChar (ft : FreeType) (current_face : FT_Face) (charcode : Nat) (load_flags : Int) :
    Option FT_GlyphSlotRec :=
  match current_face with
  | none => none
  | some face => ft.FT_Load_Char face charcode load_flags

/-- `FT_Get_Next_Char(current_face, charcode, &gindex)`. On a null handle FreeType returns 0
and sets the glyph index to 0. -/
def getNextChar (ft : FreeType) (current_face : FT_Face) (charcode : Nat) : Nat × Nat :=
  match current_face with
  | none => (0, 0)
  | some face => ft.FT_Get_Next_Char face charcode

/-- The loop `while (gindex != 0)` shared by `LoadChars` and `LoadCharsFrom`. Each iteration
reads the global `current_face` anew, and the calls the callback makes act on the globals
before the loop goes on. The first argument bounds the number of loop tests; `none` means
the bound was reached with the loop still running. -/
def charLoop {H : Type} (ft : FreeType) (load_flags : Int) (cb : Callback H) :
    Nat → Nat → Nat → State → H → Option (List Event × State × H)
  | 0, _, _, _, _ => none
  | fuel + 1, charcode, gindex, s, h =>
    if gindex = 0 then some ([], s, h)
    else
      match loadChar ft s.current_face charcode load_flags with
      | none =>
        -- `continue;`
        (charLoop ft load_flags cb fuel charcode gindex s h).map
          (fun r => (.call "FT_Load_Char" :: .diag "Can't load char '%lu'\n" :: r.1, r.2))
      | some slot =>
        let (value, h1, calls) := cb h slot charcode gindex
        let s1 := run ft s calls
        if value.isFalse then
          some ([.call "FT_Load_Char", .read "glyph", .invoke slot charcode gindex], s1, h1)
        else
          let (charcode1, gindex1) := getNextChar ft s1.current_face charcode
          (charLoop ft load_flags cb fuel charcode1 gindex1 s1 h1).map
            (fun r => (.call "FT_Load_Char" :: .read "glyph" :: .invoke slot charcode gindex ::
              .call "FT_Get_Next_Char" :: r.1, r.2))

/-- `LoadCharsFrom(first_charcode, load_flags, cb)`: the events, the globals and the
callback's state when it returns. -/
def LoadCharsFrom {H : Type} (ft : FreeType) (s : State) (first_charcode : Nat)
    (load_flags : Int) (cb : Callback H) (h : H) (fuel : Nat) :
    Option (List Event × State × H) :=
  match s.current_face with
  | none =>
    some ([.diag
      "FreeType: Current font is not set, use first `LoadFontFromBytes` and then `LoadChar`\n"],
      s, h)
  | some face =>
    let (charcode, gindex) := ft.FT_Get_Next_Char face first_charcode
    (charLoop ft load_flags cb fuel charcode gindex s h).map
      (fun r => (.call "FT_Get_Next_Char" :: r.1, r.2))

/-- `LoadChars(load_flags, cb)`: the events, the globals and the callback's state when it
returns. -/
def LoadChars {H : Type} (ft : FreeType) (s : State) (load_flags : Int) (cb : Callback H)
    (h : H) (fuel : Nat) : Option (List Event × State × H) :=
  match s.current_face with
  | none =>
    some ([.diag
      "FreeType: Current font is not set, use first `LoadFontFromBytes` and then `LoadChar`\n"],
      s, h)
  | some face =>
    let (charcode, gindex) := ft.FT_Get_First_Char face
    (charLoop ft load_flags cb fuel charcode gindex s h).map
      (fun r => (.call "FT_Get_First_Char" :: r.1, r.2))

/-- The callback invocations among the events of a call, in order. -/
def invocations : List Event → List (FT_GlyphSlotRec × Nat × Nat)
  | [] => []
  | .invoke slot c g :: es => (slot, c, g) :: invocations es
  | _ :: es => invocations es

/-! ## The walk as the character map defines it -/

/-- The character code and glyph index reached by `FT_Get_First_Char` followed by `k` calls
of `FT_Get_Next_Char`, each on the character code reached before. -/
def charAt (ft : FreeType) (face : Face) : Nat → Nat × Nat
  | 0 => ft.FT_Get_First_Char face
  | k + 1 => ft.FT_Get_Next_Char face (charAt ft face k).1

/-- The walk in words: hand each character in turn to the callback, and stop right after the
first invocation that returns `false`. Gives the invocations made and the callback's state
at the end. -/
def visit {H : Type} (cb : Callback H) :
    H → List (FT_GlyphSlotRec × Nat × Nat) → List (FT_GlyphSlotRec × Nat × Nat) × H
  | h, [] => ([], h)
  | h, x :: xs =>
    if (cb h x.1 x.2.1 x.2.2).1.isFalse then ([x], (cb h x.1 x.2.1 x.2.2).2.1)
    else (x :: (visit cb (cb h x.1 x.2.1 x.2.2).2.1 xs).1,
          (visit cb (cb h x.1 x.2.1 x.2.2).2.1 xs).2)

/-- The call, made by a callback during the walk, reselects, unloads or reconfigures a face
or runs a walk of its own; the remaining calls (`Init`, `LoadFontFromBytes`, `GetKerning`)
leave the active face, its size and its character map as they are. -/
def Call.disturbsWalk : Call → Bool
  | .Init => false
  | .LoadFontFromBytes _ => false
  | .GetKerning _ _ _ => false
  | _ => true

/-! ## Ownership of the byte buffers -/

/-- Every non-null face handle stored in the face table. -/
def tableFaces (fm : FaceMap) : List Face :=
  fm.flatMap (fun e => e.2.filterMap (fun it => it.2))

/-- Every byte array recorded in the buffer table. -/
def tableBuffers (fp : PtrMap) : List FT_Bytes :=
  fp.flatMap (fun e => e.2)

/-- Every face in the face table is backed by a byte array that is recorded in the buffer
table and has not been passed to `free`. -/
def State.backed (s : State) : Bool :=
  (tableFaces s.face_map).all
    (fun face => decide (face.buf ∈ tableBuffers s.face_ptrs) && decide (face.buf ∉ s.freed))

/-! ## A small FreeType for concrete runs -/

/-- Family names of the sample fonts. -/
def sampleFamily (n : Nat) : String :=
  if n = 0 then "Sans" else if n = 1 then "Serif" else "Mono"

/-- Style names of the sample fonts. -/
def sampleStyle (n : Nat) : String :=
  if n = 0 then "Regular" else if n = 1 then "Bold" else "Italic"

/-- A sample font file is a list of bytes, one per face: byte `16 * a + b` is a face of
family `sampleFamily a` and style `sampleStyle b`, and byte `255` is a face that cannot be
opened. The empty file is not a font. -/
def sampleOpen (font : FontBytes) (face_index : Int) : Option FT_FaceRec :=
  if font = [] then none
  else if face_index < 0 then
    some { num_faces := font.length, face_index := 0, family_name := "", style_name := "",
           num_charmaps := 0, charmaps := [] }
  else
    match font.get? face_index.toNat with
    | none => none
    | some b =>
      if b.toNat = 255 then none
      else
        some { num_faces := font.length, face_index := face_index,
               family_name := sampleFamily (b.toNat / 16),
               style_name := sampleStyle (b.toNat % 16),
               num_charmaps := 1, charmaps := [⟨0x756E6963, 3, 1⟩] }

/-- The glyph slot of the sample fonts after loading glyph `g`. -/
def sampleSlot (g : Nat) : FT_GlyphSlotRec :=
  { glyph_index := g, bitmap_rows := 0, bitmap_pitch := 0, bitmap_left := 0, bitmap_top := 0 }

/-- A FreeType whose fonts are the sample fonts; every face has the characters 65, 66, 67
with glyph indices 1, 2, 3, and character 66 fails to load under load flags 99. -/
def sampleFreeType : FreeType where
  FT_New_Memory_Face := sampleOpen
  FT_Set_Char_Size := fun _ _ _ _ _ => (false, ⟨0, 0, 0, 0, 0, 0, 0, 0⟩)
  FT_Set_Pixel_Sizes := fun _ _ _ => (false, ⟨0, 0, 0, 0, 0, 0, 0, 0⟩)
  FT_Select_Charmap := fun _ encoding => encoding != 0x756E6963
  FT_Set_Charmap := fun _ _ => false
  FT_Get_First_Char := fun _ => (65, 1)
  FT_Get_Next_Char := fun _ c =>
    if c < 65 then (65, 1) else if c < 66 then (66, 2) else if c < 67 then (67, 3) else (0, 0)
  FT_Load_Char := fun _ c load_flags =>
    if c = 66 ∧ load_flags = 99 then none else some (sampleSlot (c - 64))
  FT_Get_Kerning := fun _ _ _ _ => (false, ⟨0, 0⟩)

/-- A 2 by 2 gray bitmap with pixel values 7, 8, 9, 10. -/
def sampleBitmap : FT_Bitmap :=
  { rows := 2, width := 2, pitch := 2, buffer := fun i => i.toUInt8 + 7, num_grays := 256,
    pixel_mode := 2 }

/-- The globals after loading the one-face font "Sans"/"Regular" and selecting that face. -/
def sampleActive : State :=
  (SetFont (LoadFontFromBytes sampleFreeType State.initial [0x00]).2 "Sans" "Regular").2

/-- A callback that counts its invocations and returns `false` at character 66. -/
def sampleCallback : Callback Nat :=
  fun h _ c _ => (if c = 66 then .boolean false else .undefined, h + 1, [])

/-- A callback that counts its invocations, unloads the family "Sans" each time it runs, and
never returns `false`. -/
def unloadingCallback : Callback Nat :=
  fun h _ _ _ => (.undefined, h + 1, [.UnloadFont "Sans"])

/-- A callback that counts its invocations, loads a "Mono" font and reads a kerning each time
it runs, and returns `false` at character 66. -/
def loadingCallback : Callback Nat :=
  fun h _ c _ =>
    (if c = 66 then .boolean false else .undefined, h + 1,
      [.LoadFontFromBytes [0x20], .GetKerning 1 2 0])

/-! ## Lemmas on `std::map` -/

namespace StdMap

variable {K V : Type} [DecidableEq K]

theorem get?_put_self (m : StdMap K V) (k : K) (v : V) : get? (put m k v) k = some v := by
  induction m with
  | nil => simp [put, get?]
  | cons hd tl ih =>
    obtain ⟨k', v'⟩ := hd
    by_cases h : k' = k <;> simp [put, get?, h, ih]

theorem get?_put_ne (m : StdMap K V) {k k' : K} (v : V) (h : k ≠ k') :
    get? (put m k v) k' = get? m k' := by
  induction m with
  | nil => simp [put, get?, h]
  | cons hd tl ih =>
    obtain ⟨k₀, v₀⟩ := hd
    by_cases h₀ : k₀ = k
    · subst h₀; simp [put, get?, h]
    · by_cases h₁ : k₀ = k'
      · subst h₁; simp [put, get?, h₀]
      · simp [put, get?, h₀, h₁, ih]

theorem get?_erase_self (m : StdMap K V) (k : K) : get? (erase m k) k = none := by
  induction m with
  | nil => simp [erase, get?]
  | cons hd tl ih =>
    obtain ⟨k', v'⟩ := hd
    by_cases h : k' = k <;> simp [erase, get?, h, ih]

theorem get?_erase_ne (m : StdMap K V) {k k' : K} (h : k ≠ k') :
    get? (erase m k) k' = get? m k' := by
  induction m with
  | nil => simp [erase, get?]
  | cons hd tl ih =>
    obtain ⟨k₀, v₀⟩ := hd
    by_cases h₀ : k₀ = k
    · subst h₀; simp [erase, get?, h, ih]
    · by_cases h₁ : k₀ = k'
      · subst h₁; simp [erase, get?, h₀]
      · simp [erase, get?, h₀, h₁, ih]

theorem put_of_get? (m : StdMap K V) {k : K} {v : V} (h : get? m k = some v) :
    put m k v = m := by
  induction m with
  | nil => simp [get?] at h
  | cons hd tl ih =>
    obtain ⟨k₀, v₀⟩ := hd
    by_cases h₀ : k₀ = k
    · subst h₀
      simp [get?] at h
      simp [put, h]
    · simp only [get?, h₀, if_false] at h
      simp [put, h₀, ih h]

theorem index_fst (d : V) (m : StdMap K V) (k : K) : (index d m k).1 = (get? m k).getD d := by
  unfold index; cases get? m k <;> rfl

theorem get?_index_self (d : V) (m : StdMap K V) (k : K) :
    get? (index d m k).2 k = some ((get? m k).getD d) := by
  unfold index
  cases h : get? m k with
  | none => simp [get?_put_self]
  | some v => simp [h]

theorem get?_index_ne (d : V) (m : StdMap K V) {k k' : K} (h : k ≠ k') :
    get? (index d m k).2 k' = get? m k' := by
  unfold index
  cases get? m k with
  | none => simp [get?_put_ne _ _ h]
  | some v => rfl

theorem index_snd_of_get? (d : V) (m : StdMap K V) {k : K} {v : V} (h : get? m k = some v) :
    (index d m k).2 = m := by
  unfold index; rw [h]

end StdMap

/-! ## Lemmas on the face table -/

theorem faceMapIndex_fst (fm : FaceMap) (f st : String) :
    (faceMapIndex fm f st).1 = loadedFace fm f st := by
  unfold faceMapIndex loadedFace
  simp only [StdMap.index_fst]
  cases StdMap.get? fm f with
  | none => simp [StdMap.get?]
  | some styles => cases hs : StdMap.get? styles st <;> simp [hs]

theorem loadedFace_faceMapIndex (fm : FaceMap) (f st f' st' : String) :
    loadedFace (faceMapIndex fm f st).2 f' st' = loadedFace fm f' st' := by
  unfold faceMapIndex
  by_cases hf : f = f'
  · subst hf
    simp only [loadedFace, StdMap.get?_put_self, StdMap.index_fst]
    by_cases hs : st = st'
    · subst hs
      simp only [StdMap.get?_index_self]
      cases StdMap.get? fm f with
      | none => simp [StdMap.get?]
      | some styles => cases hs : StdMap.get? styles st <;> simp [hs]
    · simp only [StdMap.get?_index_ne _ _ hs]
      cases StdMap.get? fm f with
      | none => simp [StdMap.get?]
      | some styles => simp
  · simp only [loadedFace, StdMap.get?_put_ne _ _ hf, StdMap.get?_index_ne _ _ hf]

theorem loadedFace_faceMapAssign_self (fm : FaceMap) (f st : String) (p : FT_Face) :
    loadedFace (faceMapAssign fm f st p) f st = p := by
  simp [faceMapAssign, loadedFace, StdMap.get?_put_self]

theorem loadedFace_faceMapAssign_ne (fm : FaceMap) (f st f' st' : String) (p : FT_Face)
    (h : ¬ (f = f' ∧ st = st')) :
    loadedFace (faceMapAssign fm f st p) f' st' = loadedFace fm f' st' := by
  unfold faceMapAssign
  by_cases hf : f = f'
  · subst hf
    have hs : st ≠ st' := fun e => h ⟨rfl, e⟩
    simp only [loadedFace, StdMap.get?_put_self, StdMap.get?_put_ne _ _ hs, StdMap.index_fst]
    cases StdMap.get? fm f with
    | none => simp [StdMap.get?]
    | some styles => simp
  · simp only [loadedFace, StdMap.get?_put_ne _ _ hf, StdMap.get?_index_ne _ _ hf]

theorem faceMapIndex_snd_of_loaded (fm : FaceMap) (f st : String) {face : Face}
    (h : loadedFace fm f st = some face) : (faceMapIndex fm f st).2 = fm := by
  unfold loadedFace at h
  unfold faceMapIndex
  cases hf : StdMap.get? fm f with
  | none => simp [hf] at h
  | some styles =>
    rw [hf] at h
    cases hs : StdMap.get? styles st with
    | none => simp [hs] at h
    | some p =>
      simp only [StdMap.index_snd_of_get? _ _ hf, StdMap.index_fst, hf, Option.getD_some,
        StdMap.index_snd_of_get? _ _ hs]
      exact StdMap.put_of_get? _ hf

/-! ## Lemmas on the loading loop -/

theorem loadFaces_zero (ft : FreeType) (font : FontBytes) (ptr : FT_Bytes) (i : Nat)
    (s : State) (rtn : List FT_FaceRec) : loadFaces ft font ptr 0 i s rtn = (rtn, s) := rfl

theorem loadFaces_error (ft : FreeType) (font : FontBytes) (ptr : FT_Bytes) (k i : Nat)
    (s : State) (rtn : List FT_FaceRec) (h : ft.FT_New_Memory_Face font (i : Int) = none) :
    loadFaces ft font ptr (k + 1) i s rtn = (rtn, free s ptr) := by
  simp [loadFaces, newMemoryFace, h]

theorem loadFaces_duplicate (ft : FreeType) (font : FontBytes) (ptr : FT_Bytes) (k i : Nat)
    (s : State) (rtn : List FT_FaceRec) {r : FT_FaceRec}
    (h : ft.FT_New_Memory_Face font (i : Int) = some r)
    (hd : (loadedFace s.face_map r.family_name r.style_name).isSome = true) :
    loadFaces ft font ptr (k + 1) i s rtn
      = (rtn, rejectFace s { id := s.next_face, record := r, buf := ptr } ptr) := by
  simp [loadFaces, newMemoryFace, h, faceMapIndex_fst, hd, rejectFace]

theorem loadFaces_register (ft : FreeType) (font : FontBytes) (ptr : FT_Bytes) (k i : Nat)
    (s : State) (rtn : List FT_FaceRec) {r : FT_FaceRec}
    (h : ft.FT_New_Memory_Face font (i : Int) = some r)
    (hd : loadedFace s.face_map r.family_name r.style_name = none) :
    loadFaces ft font ptr (k + 1) i s rtn
      = loadFaces ft font ptr k (i + 1)
          (registerFace s i { id := s.next_face, record := r, buf := ptr } ptr)
          (rtn ++ [r]) := by
  simp only [loadFaces, newMemoryFace, h, faceMapIndex_fst, hd, registerFace]
  by_cases hi : i = 0 <;> simp [hi]

theorem loadedFace_registerFace_of_loaded (s : State) (i : Nat) (ft_face : Face)
    (ptr : FT_Bytes)
    (hd : loadedFace s.face_map ft_face.record.family_name ft_face.record.style_name = none)
    {f st : String} {face : Face} (h : loadedFace s.face_map f st = some face) :
    loadedFace (registerFace s i ft_face ptr).face_map f st = some face := by
  have hne : ¬ (ft_face.record.family_name = f ∧ ft_face.record.style_name = st) := by
    rintro ⟨rfl, rfl⟩
    rw [hd] at h
    exact Option.noConfusion h
  simp only [registerFace]
  rw [loadedFace_faceMapAssign_ne _ _ _ _ _ _ hne, loadedFace_faceMapIndex]
  exact h

theorem loadFaces_keeps_loaded (ft : FreeType) (font : FontBytes) (ptr : FT_Bytes)
    (f st : String) (face : Face) :
    ∀ (k i : Nat) (s : State) (rtn : List FT_FaceRec),
      loadedFace s.face_map f st = some face →
      loadedFace (loadFaces ft font ptr k i s rtn).2.face_map f st = some face := by
  intro k
  induction k with
  | zero => intro i s rtn h; exact h
  | succ k ih =>
    intro i s rtn h
    cases ho : ft.FT_New_Memory_Face font (i : Int) with
    | none => rw [loadFaces_error _ _ _ _ _ _ _ ho]; exact h
    | some r =>
      cases hd : loadedFace s.face_map r.family_name r.style_name with
      | none =>
        rw [loadFaces_register _ _ _ _ _ _ _ ho hd]
        exact ih _ _ _ (loadedFace_registerFace_of_loaded s i _ ptr hd h)
      | some q =>
        rw [loadFaces_duplicate _ _ _ _ _ _ _ ho (by rw [hd]; rfl)]
        show loadedFace (faceMapIndex s.face_map r.family_name r.style_name).2 f st = some face
        rw [loadedFace_faceMapIndex]
        exact h

/-! ## Lemmas on `UnloadFont` -/

theorem foldl_FT_Done_Face_frame (faces : StdMap String FT_Face) (s : State) :
    (faces.foldl (fun st it => FT_Done_Face st it.2) s).current_face = s.current_face ∧
    (faces.foldl (fun st it => FT_Done_Face st it.2) s).face_map = s.face_map ∧
    (faces.foldl (fun st it => FT_Done_Face st it.2) s).face_ptrs = s.face_ptrs ∧
    (faces.foldl (fun st it => FT_Done_Face st it.2) s).freed = s.freed ∧
    (faces.foldl (fun st it => FT_Done_Face st it.2) s).next_ptr = s.next_ptr := by
  induction faces generalizing s with
  | nil => simp
  | cons hd tl ih =>
    simp only [List.foldl_cons]
    obtain ⟨h1, h2, h3, h4, h5⟩ := ih (FT_Done_Face s hd.2)
    rw [h1, h2, h3, h4, h5]
    cases hd.2 <;> simp [FT_Done_Face]

theorem foldl_free_frame (mems : List FT_Bytes) (s : State) :
    (mems.foldl free s).current_face = s.current_face ∧
    (mems.foldl free s).face_map = s.face_map ∧
    (mems.foldl free s).face_ptrs = s.face_ptrs ∧
    (mems.foldl free s).freed = s.freed ++ mems ∧
    (mems.foldl free s).next_ptr = s.next_ptr := by
  induction mems generalizing s with
  | nil => simp
  | cons hd tl ih =>
    simp only [List.foldl_cons]
    obtain ⟨h1, h2, h3, h4, h5⟩ := ih (free s hd)
    rw [h1, h2, h3, h4, h5]
    simp [free]

theorem UnloadFont_current_face (s : State) (familyName : String) :
    (UnloadFont s familyName).current_face =
      match s.current_face with
      | none => none
      | some face => if face.record.family_name = familyName then none else some face := by
  simp only [UnloadFont]
  rw [(foldl_free_frame _ _).1]
  simp only []
  rw [(foldl_FT_Done_Face_frame _ _).1]

theorem UnloadFont_face_map (s : State) (familyName : String) :
    (UnloadFont s familyName).face_map
      = StdMap.erase (StdMap.index [] s.face_map familyName).2 familyName := by
  simp only [UnloadFont]
  rw [(foldl_free_frame _ _).2.1]
  simp only []
  rw [(foldl_FT_Done_Face_frame _ _).2.1]

theorem UnloadFont_face_ptrs (s : State) (familyName : String) :
    (UnloadFont s familyName).face_ptrs
      = StdMap.erase (StdMap.index [] s.face_ptrs familyName).2 familyName := by
  simp only [UnloadFont]
  rw [(foldl_free_frame _ _).2.2.1]
  simp only []
  rw [(foldl_FT_Done_Face_frame _ _).2.2.1]

theorem UnloadFont_freed (s : State) (familyName : String) :
    (UnloadFont s familyName).freed = s.freed ++ buffersOf s.face_ptrs familyName := by
  simp only [UnloadFont]
  rw [(foldl_free_frame _ _).2.2.2.1]
  simp only []
  rw [(foldl_FT_Done_Face_frame _ _).2.2.2.1, (foldl_FT_Done_Face_frame _ _).2.2.1,
    StdMap.index_fst]
  rfl

/-! ## Lemmas on a load in which every face is registered -/

theorem Init_frame (s : State) :
    (Init s).current_face = s.current_face ∧ (Init s).face_map = s.face_map ∧
    (Init s).face_ptrs = s.face_ptrs ∧ (Init s).freed = s.freed ∧
    (Init s).next_ptr = s.next_ptr ∧ (Init s).next_face = s.next_face ∧
    (Init s).done = s.done := by
  unfold Init
  split <;> simp

theorem afterProbe_frame (s : State) (probe : Face) :
    (afterProbe s probe).current_face = s.current_face ∧
    (afterProbe s probe).face_map = s.face_map ∧
    (afterProbe s probe).face_ptrs = s.face_ptrs ∧
    (afterProbe s probe).freed = s.freed ∧
    (afterProbe s probe).next_ptr = s.next_ptr + 1 ∧
    (afterProbe s probe).next_face = s.next_face + 1 := by
  obtain ⟨h1, h2, h3, h4, h5, -, -⟩ := Init_frame { s with next_ptr := s.next_ptr + 1 }
  exact ⟨h1, h2, h3, h4, h5, rfl⟩

theorem LoadFontFromBytes_of_probe (ft : FreeType) (s : State) (font : FontBytes)
    {r : FT_FaceRec} (h : ft.FT_New_Memory_Face font (-1) = some r) :
    LoadFontFromBytes ft s font
      = loadFaces ft font s.next_ptr r.num_faces.toNat 0
          (afterProbe s { id := s.next_face, record := r, buf := s.next_ptr }) [] := by
  simp only [LoadFontFromBytes, newMemoryFace, h, afterProbe, (Init_frame _).2.2.2.2.2.1]

theorem LoadFontFromBytes_of_probe_error (ft : FreeType) (s : State) (font : FontBytes)
    (h : ft.FT_New_Memory_Face font (-1) = none) :
    LoadFontFromBytes ft s font
      = ([], free (Init { s with next_ptr := s.next_ptr + 1 }) s.next_ptr) := by
  simp only [LoadFontFromBytes, newMemoryFace, h]

theorem buffersOf_facePtrsPush_self (fp : PtrMap) (f : String) (p : FT_Bytes) :
    buffersOf (facePtrsPush fp f p) f = buffersOf fp f ++ [p] := by
  simp [buffersOf, facePtrsPush, StdMap.get?_put_self, StdMap.index_fst]

theorem buffersOf_facePtrsPush_ne (fp : PtrMap) {f g : String} (p : FT_Bytes) (h : f ≠ g) :
    buffersOf (facePtrsPush fp f p) g = buffersOf fp g := by
  simp [buffersOf, facePtrsPush, StdMap.get?_put_ne _ _ h, StdMap.get?_index_ne _ _ h]

theorem loadFaces_all_register (ft : FreeType) (font : FontBytes) (ptr : FT_Bytes)
    (recs : Nat → FT_FaceRec) :
    ∀ (k i : Nat) (s : State) (rtn : List FT_FaceRec),
      (∀ j, i ≤ j → j < i + k → ft.FT_New_Memory_Face font (j : Int) = some (recs j)) →
      (∀ j, i ≤ j → j < i + k →
        loadedFace s.face_map (recs j).family_name (recs j).style_name = none) →
      (∀ j j', i ≤ j → j < i + k → i ≤ j' → j' < i + k →
        (recs j).family_name = (recs j').family_name →
        (recs j).style_name = (recs j').style_name → j = j') →
      (loadFaces ft font ptr k i s rtn).1 = rtn ++ (List.range' i k).map recs ∧
      (∀ j, i ≤ j → j < i + k →
        loadedFace (loadFaces ft font ptr k i s rtn).2.face_map
            (recs j).family_name (recs j).style_name
          = some { id := s.next_face + (j - i), record := recs j, buf := ptr }) ∧
      (∀ f st, (∀ j, i ≤ j → j < i + k →
          ¬ ((recs j).family_name = f ∧ (recs j).style_name = st)) →
        loadedFace (loadFaces ft font ptr k i s rtn).2.face_map f st
          = loadedFace s.face_map f st) ∧
      (loadFaces ft font ptr k i s rtn).2.face_ptrs
        = (if i = 0 ∧ 0 < k then facePtrsPush s.face_ptrs (recs 0).family_name ptr
           else s.face_ptrs) ∧
      (loadFaces ft font ptr k i s rtn).2.freed = s.freed := by
  intro k
  induction k with
  | zero =>
    intro i s rtn _ _ _
    refine ⟨by simp [loadFaces_zero], ?_, ?_, by simp [loadFaces_zero], rfl⟩
    · intro j h1 h2; omega
    · intro f st _; rfl
  | succ k ih =>
    intro i s rtn hopen hnew hdist
    have hoi := hopen i (le_refl _) (by omega)
    have hni := hnew i (le_refl _) (by omega)
    rw [loadFaces_register ft font ptr k i s rtn hoi hni]
    have hne : ∀ j, i + 1 ≤ j → j < i + 1 + k →
        ¬ ((recs i).family_name = (recs j).family_name ∧
           (recs i).style_name = (recs j).style_name) := by
      intro j h1 h2 ⟨e1, e2⟩
      have := hdist i j (le_refl _) (by omega) (by omega) (by omega) e1 e2
      omega
    have key : ∀ f st, ¬ ((recs i).family_name = f ∧ (recs i).style_name = st) →
        loadedFace (registerFace s i
          { id := s.next_face, record := recs i, buf := ptr } ptr).face_map f st
          = loadedFace s.face_map f st := by
      intro f st h
      simp only [registerFace]
      rw [loadedFace_faceMapAssign_ne _ _ _ _ _ _ h, loadedFace_faceMapIndex]
    obtain ⟨ih1, ih2, ih3, ih4, ih5⟩ := ih (i + 1)
      (registerFace s i { id := s.next_face, record := recs i, buf := ptr } ptr)
      (rtn ++ [recs i])
      (fun j h1 h2 => hopen j (by omega) (by omega))
      (fun j h1 h2 => by rw [key _ _ (hne j h1 h2)]; exact hnew j (by omega) (by omega))
      (fun j j' h1 h2 h3 h4 => hdist j j' (by omega) (by omega) (by omega) (by omega))
    refine ⟨?_, ?_, ?_, ?_, ?_⟩
    · rw [ih1]; simp [List.range']
    · intro j h1 h2
      by_cases hj : j = i
      · subst hj
        rw [ih3 _ _ (fun j' h1' h2' => by
          intro ⟨e1, e2⟩
          exact hne j' h1' h2' ⟨e1.symm, e2.symm⟩)]
        simp only [registerFace, Nat.sub_self, Nat.add_zero]
        exact loadedFace_faceMapAssign_self _ _ _ _
      · rw [ih2 j (by omega) (by omega)]
        simp only [registerFace]
        have : s.next_face + 1 + (j - (i + 1)) = s.next_face + (j - i) := by omega
        rw [this]
    · intro f st h
      rw [ih3 f st (fun j h1 h2 => h j (by omega) (by omega))]
      exact key f st (h i (le_refl _) (by omega))
    · rw [ih4]
      simp only [registerFace]
      by_cases hi : i = 0
      · subst hi; simp
      · simp [hi]
    · rw [ih5]; rfl

/-! ## Lemmas on the active face -/

theorem loadFaces_current_face (ft : FreeType) (font : FontBytes) (ptr : FT_Bytes) :
    ∀ (k i : Nat) (s : State) (rtn : List FT_FaceRec),
      (loadFaces ft font ptr k i s rtn).2.current_face = s.current_face := by
  intro k
  induction k with
  | zero => intro i s rtn; rfl
  | succ k ih =>
    intro i s rtn
    cases ho : ft.FT_New_Memory_Face font (i : Int) with
    | none => rw [loadFaces_error _ _ _ _ _ _ _ ho]; rfl
    | some r =>
      cases hd : loadedFace s.face_map r.family_name r.style_name with
      | none => rw [loadFaces_register _ _ _ _ _ _ _ ho hd, ih]; rfl
      | some q => rw [loadFaces_duplicate _ _ _ _ _ _ _ ho (by rw [hd]; rfl)]; rfl

theorem LoadFontFromBytes_current_face (ft : FreeType) (s : State) (font : FontBytes) :
    (LoadFontFromBytes ft s font).2.current_face = s.current_face := by
  cases ho : ft.FT_New_Memory_Face font (-1) with
  | none =>
    rw [LoadFontFromBytes_of_probe_error _ _ _ ho]
    exact (Init_frame _).1
  | some r =>
    rw [LoadFontFromBytes_of_probe _ _ _ ho, loadFaces_current_face]
    exact (afterProbe_frame _ _).1

theorem exec_current_face (ft : FreeType) (s : State) (face : Face) (c : Call)
    (hs : s.current_face = some face) (hc : c.reselects face.record.family_name = false) :
    (exec ft s c).current_face = some face := by
  cases c with
  | Init => exact (Init_frame s).1.trans hs
  | Cleanup =>
    show (Cleanup s).current_face = some face
    unfold Cleanup
    split <;> exact hs
  | LoadFontFromBytes font => exact (LoadFontFromBytes_current_face ft s font).trans hs
  | UnloadFont familyName =>
    have hne : ¬ face.record.family_name = familyName := by
      intro e
      simp [Call.reselects, e] at hc
    show (UnloadFont s familyName).current_face = some face
    rw [UnloadFont_current_face, hs]
    simp [hne]
  | SetFont a b => simp [Call.reselects] at hc
  | SetCharSize _ _ _ _ => exact hs
  | SetPixelSize _ _ => exact hs
  | SetCharmap _ => exact hs
  | SetCharmapByIndex _ => exact hs
  | LoadChars _ => exact hs
  | LoadCharsFrom _ _ => exact hs
  | GetKerning _ _ _ => exact hs

theorem run_current_face (ft : FreeType) (face : Face) :
    ∀ (calls : List Call) (s : State), s.current_face = some face →
      (∀ c ∈ calls, c.reselects face.record.family_name = false) →
      (run ft s calls).current_face = some face := by
  intro calls
  induction calls with
  | nil => intro s hs _; exact hs
  | cons c cs ih =>
    intro s hs hc
    show (run ft (exec ft s c) cs).current_face = some face
    exact ih _ (exec_current_face ft s face c hs (hc c (List.mem_cons_self _ _)))
      (fun c' h' => hc c' (List.mem_cons_of_mem _ h'))

/-- With no active face, `SetCharmap`, `SetCharmapByIndex`, `LoadChars`, `LoadCharsFrom`
and `GetKerning` write one diagnostic and do nothing else. -/
theorem guarded_calls_without_active_face {H : Type} (ft : FreeType) (s : State)
    (hs : s.current_face = none) (encoding : Nat) (index : Int) (load_flags : Int)
    (first_charcode : Nat) (cb : Callback H) (h : H) (fuel l r mode : Nat) :
    (SetCharmap ft s encoding).result = some false ∧
    (∃ msg, (SetCharmap ft s encoding).events = [.diag msg]) ∧
    (SetCharmapByIndex ft s index).result = some false ∧
    (∃ msg, (SetCharmapByIndex ft s index).events = [.diag msg]) ∧
    (∃ msg, LoadChars ft s load_flags cb h fuel = some ([.diag msg], s, h)) ∧
    (∃ msg, LoadCharsFrom ft s first_charcode load_flags cb h fuel
      = some ([.diag msg], s, h)) ∧
    (∃ msg, (GetKerning ft s l r mode).events = [.diag msg]) := by
  simp [SetCharmap, SetCharmapByIndex, LoadChars, LoadCharsFrom, GetKerning, hs]

/-! ## Lemmas on `ImageData_Getter` -/

theorem rgbaStore_length (buffer : Nat → UInt8) (rgba : List UInt8) (i : Nat) :
    (rgbaStore buffer rgba i).length = rgba.length := by
  simp [rgbaStore]

theorem rgbaStore_getElem? (buffer : Nat → UInt8) (rgba : List UInt8) (i j : Nat)
    (hi : i < 2 ^ 30) (hlen : 4 * i + 4 ≤ rgba.length) :
    (rgbaStore buffer rgba i)[j]? =
      if j = 4 * i + 3 then some (buffer i)
      else if j = 4 * i ∨ j = 4 * i + 1 ∨ j = 4 * i + 2 then some 0
      else rgba[j]? := by
  have e0 : (i * 4 + 0) % 2 ^ 32 = 4 * i := by
    rw [Nat.mod_eq_of_lt] <;> omega
  have e1 : (i * 4 + 1) % 2 ^ 32 = 4 * i + 1 := by
    rw [Nat.mod_eq_of_lt] <;> omega
  have e2 : (i * 4 + 2) % 2 ^ 32 = 4 * i + 2 := by
    rw [Nat.mod_eq_of_lt] <;> omega
  have e3 : (i * 4 + 3) % 2 ^ 32 = 4 * i + 3 := by
    rw [Nat.mod_eq_of_lt] <;> omega
  unfold rgbaStore
  rw [e0, e1, e2, e3]
  simp only [List.getElem?_set, List.length_set]
  split_ifs <;> first | rfl | omega

theorem foldl_rgbaStore (buffer : Nat → UInt8) (n : Nat) (hn : n ≤ 2 ^ 30)
    (rgba : List UInt8) (hlen : rgba.length = 4 * n) :
    ∀ m, m ≤ n →
      ((List.range m).foldl (rgbaStore buffer) rgba).length = 4 * n ∧
      (∀ i, i < m →
        ((List.range m).foldl (rgbaStore buffer) rgba)[4 * i]? = some 0 ∧
        ((List.range m).foldl (rgbaStore buffer) rgba)[4 * i + 1]? = some 0 ∧
        ((List.range m).foldl (rgbaStore buffer) rgba)[4 * i + 2]? = some 0 ∧
        ((List.range m).foldl (rgbaStore buffer) rgba)[4 * i + 3]? = some (buffer i)) := by
  intro m
  induction m with
  | zero =>
    intro _
    refine ⟨by simpa using hlen, ?_⟩
    intro i hi; omega
  | succ m ih =>
    intro hm
    obtain ⟨hl, hget⟩ := ih (by omega)
    rw [List.range_succ, List.foldl_append]
    simp only [List.foldl_cons, List.foldl_nil]
    refine ⟨by rw [rgbaStore_length]; exact hl, ?_⟩
    intro i hi
    have hstore := fun j => rgbaStore_getElem? buffer
      ((List.range m).foldl (rgbaStore buffer) rgba) m j (by omega) (by omega)
    by_cases him : i = m
    · subst him
      refine ⟨?_, ?_, ?_, ?_⟩
      · rw [hstore]; simp
      · rw [hstore]; simp
      · rw [hstore]; simp
      · rw [hstore]; simp
    · obtain ⟨g0, g1, g2, g3⟩ := hget i (by omega)
      refine ⟨?_, ?_, ?_, ?_⟩
      · rw [hstore, if_neg (by omega), if_neg (by omega)]; exact g0
      · rw [hstore, if_neg (by omega), if_neg (by omega)]; exact g1
      · rw [hstore, if_neg (by omega), if_neg (by omega)]; exact g2
      · rw [hstore, if_neg (by omega), if_neg (by omega)]; exact g3

/-! ## Lemmas on the character walk -/

theorem reselects_of_not_disturbsWalk (family : String) (c : Call)
    (h : c.disturbsWalk = false) : c.reselects family = false := by
  cases c <;> first | rfl | exact Bool.noConfusion h

theorem run_quiet_current_face (ft : FreeType) (face : Face) (calls : List Call) (s : State)
    (hs : s.current_face = some face) (hq : ∀ c ∈ calls, c.disturbsWalk = false) :
    (run ft s calls).current_face = some face :=
  run_current_face ft face calls s hs
    (fun c hc => reselects_of_not_disturbsWalk _ c (hq c hc))

theorem charLoop_walks {H : Type} (ft : FreeType) (face : Face) (load_flags : Int)
    (cb : Callback H) (n : Nat) (slots : Nat → FT_GlyphSlotRec)
    (hquiet : ∀ h slot c g, ∀ call ∈ (cb h slot c g).2.2, call.disturbsWalk = false)
    (hchars : ∀ k, k < n → (charAt ft face k).2 ≠ 0)
    (hend : (charAt ft face n).2 = 0)
    (hload : ∀ k, k < n →
      ft.FT_Load_Char face (charAt ft face k).1 load_flags = some (slots k)) :
    ∀ (d k : Nat) (s : State) (h : H) (fuel : Nat),
      s.current_face = some face → k + d = n → d < fuel →
      ∃ events s' h',
        charLoop ft load_flags cb fuel (charAt ft face k).1 (charAt ft face k).2 s h
          = some (events, s', h') ∧
        s'.current_face = some face ∧
        (invocations events, h')
          = visit cb h ((List.range' k d).map
              (fun j => (slots j, (charAt ft face j).1, (charAt ft face j).2))) := by
  intro d
  induction d with
  | zero =>
    intro k s h fuel hs hk hf
    obtain ⟨fuel', rfl⟩ : ∃ f', fuel = f' + 1 := ⟨fuel - 1, by omega⟩
    have hkn : k = n := by omega
    subst hkn
    refine ⟨[], s, h, ?_, hs, ?_⟩
    · simp [charLoop, hend]
    · simp [invocations, visit]
  | succ d ih =>
    intro k s h fuel hs hk hf
    obtain ⟨fuel', rfl⟩ : ∃ f', fuel = f' + 1 := ⟨fuel - 1, by omega⟩
    have hg := hchars k (by omega)
    have hl : loadChar ft s.current_face (charAt ft face k).1 load_flags = some (slots k) := by
      rw [hs]; exact hload k (by omega)
    have hs1 : (run ft s
        (cb h (slots k) (charAt ft face k).1 (charAt ft face k).2).2.2).current_face
        = some face :=
      run_quiet_current_face ft face _ s hs (hquiet _ _ _ _)
    by_cases hv : (cb h (slots k) (charAt ft face k).1 (charAt ft face k).2).1.isFalse = true
    · refine ⟨[.call "FT_Load_Char", .read "glyph",
          .invoke (slots k) (charAt ft face k).1 (charAt ft face k).2],
        run ft s (cb h (slots k) (charAt ft face k).1 (charAt ft face k).2).2.2,
        (cb h (slots k) (charAt ft face k).1 (charAt ft face k).2).2.1, ?_, hs1, ?_⟩
      · simp only [charLoop, hg, if_false, hl, hv, if_true]
      · simp [invocations, visit, List.range', hv]
    · obtain ⟨events, s', h', he, hs', hi⟩ := ih (k + 1)
        (run ft s (cb h (slots k) (charAt ft face k).1 (charAt ft face k).2).2.2)
        (cb h (slots k) (charAt ft face k).1 (charAt ft face k).2).2.1 fuel' hs1 (by omega)
        (by omega)
      refine ⟨.call "FT_Load_Char" :: .read "glyph" ::
          .invoke (slots k) (charAt ft face k).1 (charAt ft face k).2 ::
          .call "FT_Get_Next_Char" :: events, s', h', ?_, hs', ?_⟩
      · simp only [charLoop, hg, if_false, hl, hv, hs1, getNextChar]
        simp only [charAt] at he
        rw [he]
        rfl
      · have h1 := congrArg Prod.fst hi
        have h2 := congrArg Prod.snd hi
        simp only at h1 h2
        simp [invocations, visit, List.range', hv, ← h1, ← h2]

theorem visit_of_never_false {H : Type} (cb : Callback H)
    (hcb : ∀ h slot c g, (cb h slot c g).1.isFalse = false) :
    ∀ (xs : List (FT_GlyphSlotRec × Nat × Nat)) (h : H), (visit cb h xs).1 = xs := by
  intro xs
  induction xs with
  | nil => intro h; rfl
  | cons x xs ih => intro h; simp [visit, hcb, ih]

theorem visit_prefix {H : Type} (cb : Callback H) :
    ∀ (xs : List (FT_GlyphSlotRec × Nat × Nat)) (h : H), (visit cb h xs).1 <+: xs := by
  intro xs
  induction xs with
  | nil => intro h; simp [visit]
  | cons x xs ih =>
    intro h
    unfold visit
    split
    · simp
    · simpa using ih _

/-! ## Fresh buffer addresses -/

theorem loadFaces_face_ptrs (ft : FreeType) (font : FontBytes) (ptr : FT_Bytes) :
    ∀ (k i : Nat) (s : State) (rtn : List FT_FaceRec),
      (loadFaces ft font ptr k i s rtn).2.next_ptr = s.next_ptr ∧
      ((loadFaces ft font ptr k i s rtn).2.face_ptrs = s.face_ptrs ∨
        (i = 0 ∧ ∃ f, (loadFaces ft font ptr k i s rtn).2.face_ptrs
          = facePtrsPush s.face_ptrs f ptr)) := by
  intro k
  induction k with
  | zero => intro i s rtn; exact ⟨rfl, Or.inl rfl⟩
  | succ k ih =>
    intro i s rtn
    cases ho : ft.FT_New_Memory_Face font (i : Int) with
    | none => rw [loadFaces_error _ _ _ _ _ _ _ ho]; exact ⟨rfl, Or.inl rfl⟩
    | some r =>
      cases hd : loadedFace s.face_map r.family_name r.style_name with
      | some q =>
        rw [loadFaces_duplicate _ _ _ _ _ _ _ ho (by rw [hd]; rfl)]
        exact ⟨rfl, Or.inl rfl⟩
      | none =>
        rw [loadFaces_register _ _ _ _ _ _ _ ho hd]
        obtain ⟨h1, h2⟩ := ih (i + 1)
          (registerFace s i { id := s.next_face, record := r, buf := ptr } ptr) (rtn ++ [r])
        refine ⟨h1, ?_⟩
        rcases h2 with h2 | ⟨h2, -⟩
        · rw [h2]
          by_cases hi : i = 0
          · exact Or.inr ⟨hi, r.family_name, by simp [registerFace, hi]⟩
          · exact Or.inl (by simp [registerFace, hi])
        · omega

theorem exec_buffers_below_next_ptr (ft : FreeType) (s : State) (c : Call)
    (hs : ∀ g p, p ∈ buffersOf s.face_ptrs g → p < s.next_ptr) :
    ∀ g p, p ∈ buffersOf (exec ft s c).face_ptrs g → p < (exec ft s c).next_ptr := by
  cases c with
  | Init =>
    intro g p hp
    show p < (Init s).next_ptr
    rw [(Init_frame s).2.2.2.2.1]
    apply hs g
    have : (exec ft s .Init).face_ptrs = s.face_ptrs := (Init_frame s).2.2.1
    rw [this] at hp
    exact hp
  | Cleanup =>
    have : exec ft s .Cleanup = Cleanup s := rfl
    rw [this]
    unfold Cleanup
    split <;> exact hs
  | LoadFontFromBytes font =>
    intro g p hp
    have hex : exec ft s (.LoadFontFromBytes font) = (LoadFontFromBytes ft s font).2 := rfl
    rw [hex] at hp ⊢
    cases ho : ft.FT_New_Memory_Face font (-1) with
    | none =>
      rw [LoadFontFromBytes_of_probe_error _ _ _ ho] at hp ⊢
      have h1 : (free (Init { s with next_ptr := s.next_ptr + 1 }) s.next_ptr).face_ptrs
          = s.face_ptrs := (Init_frame _).2.2.1
      have h2 : (free (Init { s with next_ptr := s.next_ptr + 1 }) s.next_ptr).next_ptr
          = s.next_ptr + 1 := (Init_frame _).2.2.2.2.1
      simp only [h1] at hp
      simp only [h2]
      exact Nat.lt_succ_of_lt (hs g p hp)
    | some r =>
      rw [LoadFontFromBytes_of_probe _ _ _ ho] at hp ⊢
      obtain ⟨-, -, hfp, -, hnp, -⟩ :=
        afterProbe_frame s { id := s.next_face, record := r, buf := s.next_ptr }
      obtain ⟨h1, h2⟩ := loadFaces_face_ptrs ft font s.next_ptr r.num_faces.toNat 0
        (afterProbe s { id := s.next_face, record := r, buf := s.next_ptr }) []
      rw [h1, hnp]
      rcases h2 with h2 | ⟨-, f, h2⟩
      · rw [h2, hfp] at hp
        exact Nat.lt_succ_of_lt (hs g p hp)
      · rw [h2, hfp] at hp
        by_cases hf : f = g
        · subst hf
          rw [buffersOf_facePtrsPush_self] at hp
          rcases List.mem_append.1 hp with hp | hp
          · exact Nat.lt_succ_of_lt (hs _ p hp)
          · simp at hp; rw [hp]; exact Nat.lt_succ_self _
        · rw [buffersOf_facePtrsPush_ne _ _ hf] at hp
          exact Nat.lt_succ_of_lt (hs g p hp)
  | UnloadFont familyName =>
    intro g p hp
    have hex : exec ft s (.UnloadFont familyName) = UnloadFont s familyName := rfl
    rw [hex] at hp ⊢
    have hnp : (UnloadFont s familyName).next_ptr = s.next_ptr := by
      simp only [UnloadFont]
      rw [(foldl_free_frame _ _).2.2.2.2]
      simp only []
      rw [(foldl_FT_Done_Face_frame _ _).2.2.2.2]
    rw [hnp]
    rw [UnloadFont_face_ptrs] at hp
    by_cases hf : familyName = g
    · subst hf
      simp [buffersOf, StdMap.get?_erase_self] at hp
    · simp only [buffersOf, StdMap.get?_erase_ne _ hf, StdMap.get?_index_ne _ _ hf] at hp
      exact hs g p hp
  | SetFont a b => exact hs
  | SetCharSize _ _ _ _ => exact hs
  | SetPixelSize _ _ => exact hs
  | SetCharmap _ => exact hs
  | SetCharmapByIndex _ => exact hs
  | LoadChars _ => exact hs
  | LoadCharsFrom _ _ => exact hs
  | GetKerning _ _ _ => exact hs

/-- In every state reached from program start, the address `malloc` hands out next is not
recorded in the buffer table. -/
theorem run_next_ptr_fresh (ft : FreeType) (calls : List Call) (g : String) :
    (run ft State.initial calls).next_ptr
      ∉ buffersOf (run ft State.initial calls).face_ptrs g := by
  have key : ∀ (cs : List Call) (s : State),
      (∀ g p, p ∈ buffersOf s.face_ptrs g → p < s.next_ptr) →
      ∀ g p, p ∈ buffersOf (run ft s cs).face_ptrs g → p < (run ft s cs).next_ptr := by
    intro cs
    induction cs with
    | nil => intro s hs; exact hs
    | cons c cs ih =>
      intro s hs
      exact ih (exec ft s c) (exec_buffers_below_next_ptr ft s c hs)
  intro hmem
  have := key calls State.initial (by intro g p hp; simp [buffersOf, State.initial, StdMap.get?] at hp)
    g _ hmem
  exact Nat.lt_irrefl _ this

/-! ## Lemmas on a load rejected at its first face, and on a character that fails to load -/

theorem LoadFontFromBytes_rejected_before_registering (ft : FreeType) (s : State)
    (font : FontBytes)
    (h : ft.FT_New_Memory_Face font (-1) = none ∨
      ∃ probe, ft.FT_New_Memory_Face font (-1) = some probe ∧ 0 < probe.num_faces ∧
        (ft.FT_New_Memory_Face font ((0 : Nat) : Int) = none ∨
          ∃ r, ft.FT_New_Memory_Face font ((0 : Nat) : Int) = some r ∧
            (loadedFace s.face_map r.family_name r.style_name).isSome = true)) :
    (LoadFontFromBytes ft s font).1 = [] ∧
    (∀ f st, loadedFace (LoadFontFromBytes ft s font).2.face_map f st
      = loadedFace s.face_map f st) ∧
    (LoadFontFromBytes ft s font).2.face_ptrs = s.face_ptrs := by
  rcases h with h | ⟨probe, hp, hpos, h⟩
  · rw [LoadFontFromBytes_of_probe_error _ _ _ h]
    exact ⟨rfl, fun f st => congrArg (fun m => loadedFace m f st) (Init_frame _).2.1,
      (Init_frame _).2.2.1⟩
  · rw [LoadFontFromBytes_of_probe _ _ _ hp]
    obtain ⟨k, hk⟩ : ∃ k, probe.num_faces.toNat = k + 1 :=
      ⟨probe.num_faces.toNat - 1, by omega⟩
    rw [hk]
    obtain ⟨-, hfm, hfp, -, -, -⟩ :=
      afterProbe_frame s { id := s.next_face, record := probe, buf := s.next_ptr }
    rcases h with h | ⟨r, hr, hd⟩
    · rw [loadFaces_error _ _ _ _ _ _ _ h]
      exact ⟨rfl, fun f st => congrArg (fun m => loadedFace m f st) hfm, hfp⟩
    · rw [loadFaces_duplicate _ _ _ _ _ _ _ hr (by rw [hfm]; exact hd)]
      exact ⟨rfl, fun f st => (loadedFace_faceMapIndex _ _ _ _ _).trans
        (congrArg (fun m => loadedFace m f st) hfm), hfp⟩

theorem charLoop_load_error_never_returns {H : Type} (ft : FreeType) (load_flags : Int)
    (cb : Callback H) (s : State) (charcode gindex : Nat) (hg : gindex ≠ 0)
    (hl : loadChar ft s.current_face charcode load_flags = none) :
    ∀ (fuel : Nat) (h : H), charLoop ft load_flags cb fuel charcode gindex s h = none := by
  intro fuel
  induction fuel with
  | zero => intro h; rfl
  | succ n ih => intro h; simp [charLoop, hg, hl, ih]

/-! ## The claims -/

/-- C1. The face table holds at most one loaded face per (family name, style name) pair: a
pair that maps to a loaded face before `LoadFontFromBytes` maps to that same face after the
call, whatever the table state and the font buffer. -/
theorem LoadFontFromBytes_keeps_loaded_pair (ft : FreeType) (s : State) (font : FontBytes)
    (family style : String) (face : Face)
    (h : loadedFace s.face_map family style = some face) :
    loadedFace (LoadFontFromBytes ft s font).2.face_map family style = some face := by
  unfold LoadFontFromBytes
  cases ho : ft.FT_New_Memory_Face font (-1) with
  | none =>
    simp only [newMemoryFace, ho]
    show loadedFace (Init _).face_map family style = some face
    unfold Init
    split <;> exact h
  | some r =>
    simp only [newMemoryFace, ho]
    apply loadFaces_keeps_loaded
    show loadedFace (Init _).face_map family style = some face
    unfold Init
    split <;> exact h

/-- C1, at a concrete input: with "Sans"/"Regular" loaded, loading a font that holds the
same pair again leaves the pair on the face loaded first. -/
theorem LoadFontFromBytes_keeps_loaded_pair_witness :
    loadedFace (LoadFontFromBytes sampleFreeType State.initial [0x00]).2.face_map
        "Sans" "Regular"
      = some ⟨1, ⟨1, 0, "Sans", "Regular", 1, [⟨0x756E6963, 3, 1⟩]⟩, 0⟩ ∧
    loadedFace
        (LoadFontFromBytes sampleFreeType
          (LoadFontFromBytes sampleFreeType State.initial [0x00]).2 [0x01, 0x00]).2.face_map
        "Sans" "Regular"
      = some ⟨1, ⟨1, 0, "Sans", "Regular", 1, [⟨0x756E6963, 3, 1⟩]⟩, 0⟩ :=
  ⟨by decide,
   LoadFontFromBytes_keeps_loaded_pair sampleFreeType _ [0x01, 0x00] "Sans" "Regular" _
    (by decide)⟩

/-- C3. `UnloadFont(f)` clears the active face exactly when it belongs to the unloaded
family: afterwards the active face is absent if it was present with family name `f`, and is
what it was otherwise. -/
theorem UnloadFont_clears_active_face (s : State) (f : String) :
    (UnloadFont s f).current_face =
      if s.current_face.map (fun face => face.record.family_name) = some f then none
      else s.current_face := by
  rw [UnloadFont_current_face]
  cases s.current_face with
  | none => simp
  | some face => by_cases h : face.record.family_name = f <;> simp [h]

/-- C4. `UnloadFont(f)` ends the lifetime of family `f` only: afterwards neither table has
an entry for `f`, and the entries of every other family `g` in both tables are what they
were. -/
theorem UnloadFont_removes_only_family (s : State) (f : String) :
    StdMap.get? (UnloadFont s f).face_map f = none ∧
    StdMap.get? (UnloadFont s f).face_ptrs f = none ∧
    ∀ g : String, g ≠ f →
      StdMap.get? (UnloadFont s f).face_map g = StdMap.get? s.face_map g ∧
      StdMap.get? (UnloadFont s f).face_ptrs g = StdMap.get? s.face_ptrs g := by
  rw [UnloadFont_face_map, UnloadFont_face_ptrs]
  refine ⟨StdMap.get?_erase_self _ _, StdMap.get?_erase_self _ _, ?_⟩
  intro g hg
  have hg' : f ≠ g := fun e => hg e.symm
  rw [StdMap.get?_erase_ne _ hg', StdMap.get?_erase_ne _ hg', StdMap.get?_index_ne _ _ hg',
    StdMap.get?_index_ne _ _ hg']
  exact ⟨rfl, rfl⟩

/-- C4, at a concrete input: after loading a "Sans" font and a "Serif" font, unloading
"Sans" leaves the entries of "Serif" in both tables as they were. -/
theorem UnloadFont_removes_only_family_witness :
    "Serif" ≠ "Sans" ∧
    StdMap.get? (UnloadFont (run sampleFreeType State.initial
        [.LoadFontFromBytes [0x00, 0x01], .LoadFontFromBytes [0x10]]) "Sans").face_map "Serif"
      = StdMap.get? (run sampleFreeType State.initial
        [.LoadFontFromBytes [0x00, 0x01], .LoadFontFromBytes [0x10]]).face_map "Serif" ∧
    StdMap.get? (UnloadFont (run sampleFreeType State.initial
        [.LoadFontFromBytes [0x00, 0x01], .LoadFontFromBytes [0x10]]) "Sans").face_ptrs "Serif"
      = StdMap.get? (run sampleFreeType State.initial
        [.LoadFontFromBytes [0x00, 0x01], .LoadFontFromBytes [0x10]]).face_ptrs "Serif" :=
  ⟨by decide,
   (UnloadFont_removes_only_family (run sampleFreeType State.initial
      [.LoadFontFromBytes [0x00, 0x01], .LoadFontFromBytes [0x10]]) "Sans").2.2 "Serif"
    (by decide)⟩

/-- C5. A successful load enumerates and registers every face: when the buffer opens as a
font with `n` faces, each of which opens, whose (family, style) pairs are pairwise distinct
and none of which is loaded, `LoadFontFromBytes` returns the `n` face records in face-index
order, afterwards pair `i` maps to the face opened at index `i` on the new buffer, every
other pair maps to what it mapped to before, and (for `n` at least 1) the buffer is appended
once to the byte arrays of face 0's family and to no other family; where the new buffer
address was not recorded before, it is recorded exactly once afterwards. -/
theorem LoadFontFromBytes_registers_every_face (ft : FreeType) (s : State) (font : FontBytes)
    (n : Nat) (probe : FT_FaceRec) (recs : Nat → FT_FaceRec)
    (hprobe : ft.FT_New_Memory_Face font (-1) = some probe)
    (hn : probe.num_faces = (n : Int))
    (hopen : ∀ i, i < n → ft.FT_New_Memory_Face font (i : Int) = some (recs i))
    (hdistinct : ∀ i, i < n → ∀ j, j < n →
      (recs i).family_name = (recs j).family_name →
      (recs i).style_name = (recs j).style_name → i = j)
    (hnew : ∀ i, i < n →
      loadedFace s.face_map (recs i).family_name (recs i).style_name = none) :
    (LoadFontFromBytes ft s font).1 = (List.range n).map recs ∧
    (∀ i, i < n →
      loadedFace (LoadFontFromBytes ft s font).2.face_map
          (recs i).family_name (recs i).style_name
        = some { id := s.next_face + 1 + i, record := recs i, buf := s.next_ptr }) ∧
    (∀ f st, (∀ i, i < n → ¬ ((recs i).family_name = f ∧ (recs i).style_name = st)) →
      loadedFace (LoadFontFromBytes ft s font).2.face_map f st = loadedFace s.face_map f st) ∧
    (0 < n →
      buffersOf (LoadFontFromBytes ft s font).2.face_ptrs (recs 0).family_name
        = buffersOf s.face_ptrs (recs 0).family_name ++ [s.next_ptr] ∧
      (∀ g, g ≠ (recs 0).family_name →
        buffersOf (LoadFontFromBytes ft s font).2.face_ptrs g = buffersOf s.face_ptrs g) ∧
      ((∀ g, s.next_ptr ∉ buffersOf s.face_ptrs g) →
        (buffersOf (LoadFontFromBytes ft s font).2.face_ptrs (recs 0).family_name).count
            s.next_ptr = 1 ∧
        ∀ g, g ≠ (recs 0).family_name →
          s.next_ptr ∉ buffersOf (LoadFontFromBytes ft s font).2.face_ptrs g)) ∧
    (LoadFontFromBytes ft s font).2.freed = s.freed := by
  rw [LoadFontFromBytes_of_probe ft s font hprobe, hn, Int.toNat_ofNat]
  obtain ⟨-, hfm, hfp, hfr, -, hnf⟩ :=
    afterProbe_frame s { id := s.next_face, record := probe, buf := s.next_ptr }
  obtain ⟨h1, h2, h3, h4, h5⟩ := loadFaces_all_register ft font s.next_ptr recs n 0
    (afterProbe s { id := s.next_face, record := probe, buf := s.next_ptr }) []
    (fun j _ h => hopen j (by omega))
    (fun j _ h => by rw [hfm]; exact hnew j (by omega))
    (fun j j' _ h _ h' => hdistinct j (by omega) j' (by omega))
  refine ⟨?_, ?_, ?_, ?_, ?_⟩
  · rw [h1, List.range_eq_range']; simp
  · intro i hi
    rw [h2 i (Nat.zero_le _) (by omega), hnf, Nat.sub_zero]
  · intro f st h
    rw [h3 f st (fun j _ hj => h j (by omega)), hfm]
  · intro hpos
    rw [h4, hfp]
    simp only [hpos, and_self, if_true]
    have hself := buffersOf_facePtrsPush_self s.face_ptrs (recs 0).family_name s.next_ptr
    have hother : ∀ g, g ≠ (recs 0).family_name →
        buffersOf (facePtrsPush s.face_ptrs (recs 0).family_name s.next_ptr) g
          = buffersOf s.face_ptrs g :=
      fun g hg => buffersOf_facePtrsPush_ne s.face_ptrs s.next_ptr (fun e => hg e.symm)
    refine ⟨hself, hother, ?_⟩
    intro hfresh
    refine ⟨?_, fun g hg => by rw [hother g hg]; exact hfresh g⟩
    rw [hself, List.count_append, List.count_eq_zero_of_not_mem (hfresh _)]
    simp
  · rw [h5, hfr]

/-- C5, at a concrete input: a font holding "Sans"/"Regular" and "Serif"/"Bold", loaded into
the empty tables. -/
theorem LoadFontFromBytes_registers_every_face_witness :
    (LoadFontFromBytes sampleFreeType State.initial [0x00, 0x11]).1
      = (List.range 2).map (fun i => (sampleOpen [0x00, 0x11] (i : Int)).getD
          ⟨0, 0, "", "", 0, []⟩) ∧
    buffersOf (LoadFontFromBytes sampleFreeType State.initial [0x00, 0x11]).2.face_ptrs "Sans"
      = [0] :=
  have h := LoadFontFromBytes_registers_every_face sampleFreeType State.initial [0x00, 0x11] 2
    ⟨2, 0, "", "", 0, []⟩
    (fun i => (sampleOpen [0x00, 0x11] (i : Int)).getD ⟨0, 0, "", "", 0, []⟩)
    (by decide) (by decide) (by decide) (by decide) (by decide)
  ⟨h.1, (h.2.2.2.1 (by decide)).1⟩

/-- C2. The code at two inputs where a face of the face table is backed by a freed buffer.
With "Serif"/"Regular" loaded, loading a font that holds "Sans"/"Regular" and then
"Serif"/"Regular" registers "Sans"/"Regular" on buffer 1 and, on meeting the duplicate,
frees buffer 1, which stays recorded. Unloading "Sans" after loading a font with a "Sans"
face and a "Serif" face frees buffer 0 and forgets it, while "Serif"/"Bold" stays in the
table on buffer 0. -/
theorem registered_face_on_freed_buffer :
    (loadedFace
        (run sampleFreeType State.initial
          [.LoadFontFromBytes [0x10], .LoadFontFromBytes [0x00, 0x10]]).face_map
        "Sans" "Regular"
      = some ⟨3, ⟨2, 0, "Sans", "Regular", 1, [⟨0x756E6963, 3, 1⟩]⟩, 1⟩ ∧
     (run sampleFreeType State.initial
        [.LoadFontFromBytes [0x10], .LoadFontFromBytes [0x00, 0x10]]).freed = [1] ∧
     buffersOf (run sampleFreeType State.initial
        [.LoadFontFromBytes [0x10], .LoadFontFromBytes [0x00, 0x10]]).face_ptrs "Sans" = [1] ∧
     (run sampleFreeType State.initial
        [.LoadFontFromBytes [0x10], .LoadFontFromBytes [0x00, 0x10]]).backed = false) ∧
    (loadedFace
        (run sampleFreeType State.initial
          [.LoadFontFromBytes [0x00, 0x11], .UnloadFont "Sans"]).face_map "Serif" "Bold"
      = some ⟨2, ⟨2, 1, "Serif", "Bold", 1, [⟨0x756E6963, 3, 1⟩]⟩, 0⟩ ∧
     (run sampleFreeType State.initial
        [.LoadFontFromBytes [0x00, 0x11], .UnloadFont "Sans"]).freed = [0] ∧
     (run sampleFreeType State.initial
        [.LoadFontFromBytes [0x00, 0x11], .UnloadFont "Sans"]).face_ptrs = [] ∧
     (run sampleFreeType State.initial
        [.LoadFontFromBytes [0x00, 0x11], .UnloadFont "Sans"]).backed = false) := by
  decide

/-- C6. `SetFont` selects a loaded face without touching the tables: for a pair that maps to
a loaded face it makes that face the active face, returns that face's record, leaves both
tables as they were, and the face is still active after any further calls among which there
is no `SetFont` and no `UnloadFont` of the face's family. -/
theorem SetFont_selects_loaded_face (ft : FreeType) (s : State) (family style : String)
    (face : Face) (h : loadedFace s.face_map family style = some face) :
    (SetFont s family style).2.current_face = some face ∧
    (SetFont s family style).1 = some face.record ∧
    (SetFont s family style).2.face_map = s.face_map ∧
    (SetFont s family style).2.face_ptrs = s.face_ptrs ∧
    ∀ calls : List Call, (∀ c ∈ calls, c.reselects face.record.family_name = false) →
      (run ft (SetFont s family style).2 calls).current_face = some face := by
  have hcur : (SetFont s family style).2.current_face = some face := by
    show (faceMapIndex s.face_map family style).1 = some face
    rw [faceMapIndex_fst]; exact h
  refine ⟨hcur, ?_, ?_, rfl, ?_⟩
  · show (faceMapIndex s.face_map family style).1.map (fun face => face.record) = _
    rw [faceMapIndex_fst, h]; rfl
  · exact faceMapIndex_snd_of_loaded _ _ _ h
  · intro calls hc
    exact run_current_face ft face calls _ hcur hc

/-- C6, at a concrete input: "Serif"/"Bold" is selected, then sizes are set, another font is
loaded and the "Sans" family is unloaded; "Serif"/"Bold" is still the active face. -/
theorem SetFont_selects_loaded_face_witness :
    (run sampleFreeType
      (SetFont (run sampleFreeType State.initial [.LoadFontFromBytes [0x00, 0x11]])
        "Serif" "Bold").2
      [.SetPixelSize 16 16, .LoadFontFromBytes [0x20], .LoadChars 0, .UnloadFont "Sans",
        .Cleanup]).current_face
      = some ⟨2, ⟨2, 1, "Serif", "Bold", 1, [⟨0x756E6963, 3, 1⟩]⟩, 0⟩ :=
  (SetFont_selects_loaded_face sampleFreeType
    (run sampleFreeType State.initial [.LoadFontFromBytes [0x00, 0x11]]) "Serif" "Bold"
    ⟨2, ⟨2, 1, "Serif", "Bold", 1, [⟨0x756E6963, 3, 1⟩]⟩, 0⟩ (by decide)).2.2.2.2
    [.SetPixelSize 16 16, .LoadFontFromBytes [0x20], .LoadChars 0, .UnloadFont "Sans",
      .Cleanup] (by decide)

/-- C7. The code where the claim fails: with no active face, `SetCharSize` and
`SetPixelSize` write the diagnostic and then read `size` through the null `current_face`
to build their return value, whatever FreeType and the arguments are. -/
theorem size_calls_without_active_face_read_face (ft : FreeType)
    (char_width char_height : Int) (horz_resolution vert_resolution : Nat)
    (pixel_width pixel_height : Nat) :
    State.initial.current_face = none ∧
    Event.read "size" ∈
      (SetCharSize ft State.initial char_width char_height horz_resolution
        vert_resolution).events ∧
    (SetCharSize ft State.initial char_width char_height horz_resolution
        vert_resolution).result = none ∧
    Event.read "size" ∈ (SetPixelSize ft State.initial pixel_width pixel_height).events ∧
    (SetPixelSize ft State.initial pixel_width pixel_height).result = none := by
  simp [SetCharSize, SetPixelSize, State.initial]

/-- C8. `ImageData_Getter` converts a gray bitmap buffer to an RGBA image-data layout: for a
bitmap with non-negative pitch and `rows * pitch < 2^30` it returns null when
`rows * pitch = 0`, and otherwise image data of width `pitch` and height `rows` whose byte
array has length `4 * rows * pitch` and in which, for every `i < rows * pitch`, bytes `4i`,
`4i+1`, `4i+2` are 0 and byte `4i+3` is `buffer[i]`. -/
theorem ImageData_Getter_rgba (v : FT_Bitmap) (hp : 0 ≤ v.pitch)
    (hs : (v.rows : Int) * v.pitch < 2 ^ 30) :
    ((v.rows : Int) * v.pitch = 0 → ImageData_Getter v = none) ∧
    ((v.rows : Int) * v.pitch ≠ 0 →
      ∃ img, ImageData_Getter v = some img ∧
        img.width = v.pitch ∧ img.height = v.rows ∧
        (img.data.length : Int) = 4 * v.rows * v.pitch ∧
        (img.data.length : Int) = 4 * img.width * img.height ∧
        ∀ i : Nat, (i : Int) < v.rows * v.pitch →
          img.data[4 * i]? = some 0 ∧ img.data[4 * i + 1]? = some 0 ∧
          img.data[4 * i + 2]? = some 0 ∧ img.data[4 * i + 3]? = some (v.buffer i)) := by
  obtain ⟨p, hpe⟩ := Int.eq_ofNat_of_zero_le hp
  have hlt : v.rows * p < 2 ^ 30 := by
    rw [hpe] at hs
    exact_mod_cast hs
  have hprod : (v.rows : Int) * v.pitch = ((v.rows * p : Nat) : Int) := by
    rw [hpe]; push_cast; rfl
  have hsize : (v.rows * (v.pitch % 2 ^ 32).toNat) % 2 ^ 32 = v.rows * p := by
    rcases Nat.eq_zero_or_pos v.rows with h0 | h0
    · simp [h0]
    · have hp32 : p < 2 ^ 32 := by
        calc p ≤ v.rows * p := Nat.le_mul_of_pos_left p h0
          _ < 2 ^ 32 := by omega
      have hpm : (v.pitch % 2 ^ 32).toNat = p := by
        rw [hpe]
        have : ((p : Int) % 2 ^ 32) = ((p % 2 ^ 32 : Nat) : Int) := by norm_cast
        rw [this, Int.toNat_ofNat]
        exact Nat.mod_eq_of_lt hp32
      rw [hpm]
      apply Nat.mod_eq_of_lt
      omega
  have hsize4 : (v.rows * p * 4) % 2 ^ 32 = 4 * (v.rows * p) := by
    rw [Nat.mod_eq_of_lt] <;> omega
  constructor
  · intro h0
    have : v.rows * p = 0 := by
      rw [hprod] at h0
      exact_mod_cast h0
    simp only [ImageData_Getter, hsize, this, if_true]
  · intro hne
    have hne' : v.rows * p ≠ 0 := by
      intro e
      apply hne
      rw [hprod, e]; rfl
    obtain ⟨hl, hget⟩ := foldl_rgbaStore v.buffer (v.rows * p) (by omega)
      (List.replicate (4 * (v.rows * p)) (0 : UInt8)) (by simp) (v.rows * p) (le_refl _)
    refine ⟨{ data := (List.range (v.rows * p)).foldl (rgbaStore v.buffer)
                (List.replicate (4 * (v.rows * p)) (0 : UInt8)),
              width := v.pitch, height := v.rows }, ?_, rfl, rfl, ?_, ?_, ?_⟩
    · simp only [ImageData_Getter, hsize, hsize4, hne', if_false]
    · show ((List.length _ : Nat) : Int) = _
      rw [hl, hpe]; push_cast; ring
    · show ((List.length _ : Nat) : Int) = 4 * v.pitch * (v.rows : Int)
      rw [hl, hpe]; push_cast; ring
    · intro i hi
      apply hget
      rw [hprod] at hi
      exact_mod_cast hi

/-- C8, at a concrete input: the 2 by 2 bitmap with pixels 7, 8, 9, 10. -/
theorem ImageData_Getter_rgba_witness :
    ∃ img, ImageData_Getter sampleBitmap = some img ∧
      img.width = 2 ∧ img.height = 2 ∧
      (img.data.length : Int) = 4 * 2 * 2 ∧
      (img.data.length : Int) = 4 * img.width * img.height ∧
      ∀ i : Nat, (i : Int) < 2 * 2 →
        img.data[4 * i]? = some 0 ∧ img.data[4 * i + 1]? = some 0 ∧
        img.data[4 * i + 2]? = some 0 ∧ img.data[4 * i + 3]? = some (sampleBitmap.buffer i) :=
  (ImageData_Getter_rgba sampleBitmap (by decide) (by decide)).2 (by decide)

/-- C9, as stated, fails for `FT_ENCODING_NONE`, whose value is 0: the returned string is
empty, not four characters long. -/
theorem Encoding_Getter_none_is_empty :
    Encoding_Getter ⟨0, 0, 0⟩ = [] ∧ (Encoding_Getter ⟨0, 0, 0⟩).length ≠ 4 := by
  decide

/-- C9, amended. `Encoding_Getter` decodes the encoding tag as a NUL-terminated string of up
to four letters: the returned string is the bytes `(encoding >> 8*(3-k)) & 0xff`,
`k = 0..3`, most significant first, up to the first zero byte; when none of the four bytes
is zero it has exactly four characters and its `k`-th character is that byte. -/
theorem Encoding_Getter_bytes (v : FT_CharMapRec) :
    Encoding_Getter v
      = ((List.range 4).map (fun k => (v.encoding >>> (8 * (3 - k))) &&& 0xff)).takeWhile
          (fun b => b != 0) ∧
    ((∀ k, k < 4 → (v.encoding >>> (8 * (3 - k))) &&& 0xff ≠ 0) →
      (Encoding_Getter v).length = 4 ∧
      ∀ k, k < 4 →
        (Encoding_Getter v)[k]? = some ((v.encoding >>> (8 * (3 - k))) &&& 0xff)) := by
  have hlist : (List.range 4).map (fun k => (v.encoding >>> (8 * (3 - k))) &&& 0xff)
      = [(v.encoding >>> (8 * 3)) &&& 0xff, (v.encoding >>> (8 * 2)) &&& 0xff,
         (v.encoding >>> (8 * 1)) &&& 0xff, (v.encoding >>> (8 * 0)) &&& 0xff] := by
    simp [List.range, List.range.loop]
  have htake : ∀ l : List Nat, (l ++ [0]).takeWhile (fun b => b != 0)
      = l.takeWhile (fun b => b != 0) := by
    intro l
    induction l with
    | nil => simp [List.takeWhile]
    | cons a t ih =>
      simp only [List.cons_append, List.takeWhile_cons]
      split
      · rw [ih]
      · rfl
  have hfirst : Encoding_Getter v
      = ((List.range 4).map (fun k => (v.encoding >>> (8 * (3 - k))) &&& 0xff)).takeWhile
          (fun b => b != 0) := by
    rw [hlist]
    exact htake [(v.encoding >>> (8 * 3)) &&& 0xff, (v.encoding >>> (8 * 2)) &&& 0xff,
      (v.encoding >>> (8 * 1)) &&& 0xff, (v.encoding >>> (8 * 0)) &&& 0xff]
  refine ⟨hfirst, ?_⟩
  intro hnz
  have hall : Encoding_Getter v
      = (List.range 4).map (fun k => (v.encoding >>> (8 * (3 - k))) &&& 0xff) := by
    rw [hfirst, List.takeWhile_eq_self_iff]
    intro b hb
    obtain ⟨k, hk, rfl⟩ := List.mem_map.1 hb
    simpa using hnz k (List.mem_range.1 hk)
  rw [hall]
  refine ⟨by simp, ?_⟩
  intro k hk
  simp [List.getElem?_map, List.getElem?_range hk]

/-- C9, amended, at a concrete input: `FT_ENCODING_UNICODE`, the tag "unic". -/
theorem Encoding_Getter_bytes_witness :
    (Encoding_Getter ⟨0x756E6963, 3, 1⟩).length = 4 ∧
    ∀ k, k < 4 →
      (Encoding_Getter ⟨0x756E6963, 3, 1⟩)[k]? = some ((0x756E6963 >>> (8 * (3 - k))) &&& 0xff) :=
  (Encoding_Getter_bytes ⟨0x756E6963, 3, 1⟩).2 (by decide)

/-- C10, as stated, fails for a callback that calls back into the module. The sample face
has the characters 65, 66, 67, all of which load, and the callback never returns `false`,
but it calls `UnloadFont("Sans")`: the loop reads `current_face` again after the first
invocation, finds it null, and ends with characters 66 and 67 not visited. -/
theorem LoadChars_cut_short_by_unloading_callback :
    sampleActive.current_face
      = some ⟨1, ⟨1, 0, "Sans", "Regular", 1, [⟨0x756E6963, 3, 1⟩]⟩, 0⟩ ∧
    (∀ k, k < 3 → (charAt sampleFreeType
      ⟨1, ⟨1, 0, "Sans", "Regular", 1, [⟨0x756E6963, 3, 1⟩]⟩, 0⟩ k).2 ≠ 0) ∧
    (charAt sampleFreeType
      ⟨1, ⟨1, 0, "Sans", "Regular", 1, [⟨0x756E6963, 3, 1⟩]⟩, 0⟩ 3).2 = 0 ∧
    (∀ k, k < 3 → sampleFreeType.FT_Load_Char
      ⟨1, ⟨1, 0, "Sans", "Regular", 1, [⟨0x756E6963, 3, 1⟩]⟩, 0⟩
      (charAt sampleFreeType
        ⟨1, ⟨1, 0, "Sans", "Regular", 1, [⟨0x756E6963, 3, 1⟩]⟩, 0⟩ k).1 0
        = some (sampleSlot (k + 1))) ∧
    (∀ h slot c g, (unloadingCallback h slot c g).1.isFalse = false) ∧
    (LoadChars sampleFreeType sampleActive 0 unloadingCallback 0 4).map
        (fun r => (invocations r.1, r.2.1.current_face, r.2.2))
      = some ([(sampleSlot 1, 65, 1)], none, 1) :=
  ⟨by decide, by decide, by decide, by decide, fun _ _ _ _ => rfl, by decide⟩

/-- C10, amended. `LoadChars` walks the active face's character map and hands each character
to the callback, for every callback that, while it runs, makes no call into the module other
than `Init`, `LoadFontFromBytes` and `GetKerning` (so that the active face, its size and its
character map stay as they are): when the walk of `FT_Get_First_Char` and repeated
`FT_Get_Next_Char` reaches glyph index 0 after `n` characters, all of which load,
`LoadChars` returns with the same face active, and its callback invocations are those of the
walk in words, (glyph slot, character code, glyph index) per character in that order, ending
right after the first invocation that returns `false`; so they are an initial part of the
characters, all of them when the callback never returns `false`, and none when the character
map is empty. -/
theorem LoadChars_walks_charmap_of_quiet_callback {H : Type} (ft : FreeType) (s : State)
    (face : Face) (load_flags : Int) (cb : Callback H) (h : H) (n : Nat)
    (slots : Nat → FT_GlyphSlotRec) (fuel : Nat)
    (hface : s.current_face = some face)
    (hquiet : ∀ h₁ slot c g, ∀ call ∈ (cb h₁ slot c g).2.2, call.disturbsWalk = false)
    (hchars : ∀ k, k < n → (charAt ft face k).2 ≠ 0)
    (hend : (charAt ft face n).2 = 0)
    (hload : ∀ k, k < n →
      ft.FT_Load_Char face (charAt ft face k).1 load_flags = some (slots k))
    (hfuel : n < fuel) :
    ∃ events s' h',
      LoadChars ft s load_flags cb h fuel = some (events, s', h') ∧
      s'.current_face = some face ∧
      (invocations events, h')
        = visit cb h ((List.range n).map
            (fun k => (slots k, (charAt ft face k).1, (charAt ft face k).2))) ∧
      invocations events <+: (List.range n).map
          (fun k => (slots k, (charAt ft face k).1, (charAt ft face k).2)) ∧
      ((∀ h₁ slot c g, (cb h₁ slot c g).1.isFalse = false) →
        invocations events = (List.range n).map
          (fun k => (slots k, (charAt ft face k).1, (charAt ft face k).2))) ∧
      (n = 0 → invocations events = []) := by
  obtain ⟨events, s', h', he, hs', hi⟩ :=
    charLoop_walks ft face load_flags cb n slots hquiet hchars hend hload n 0 s h fuel hface
      (by omega) hfuel
  rw [← List.range_eq_range'] at hi
  have hinv : invocations (Event.call "FT_Get_First_Char" :: events) = invocations events :=
    rfl
  have hfst : invocations events = (visit cb h ((List.range n).map
      (fun k => (slots k, (charAt ft face k).1, (charAt ft face k).2)))).1 :=
    congrArg Prod.fst hi
  refine ⟨.call "FT_Get_First_Char" :: events, s', h', ?_, hs', ?_, ?_, ?_, ?_⟩
  · simp only [LoadChars, hface]
    simp only [charAt] at he
    rw [he]
    rfl
  · rw [hinv]; exact hi
  · rw [hinv, hfst]
    exact visit_prefix cb _ h
  · intro hcb
    rw [hinv, hfst]
    exact visit_of_never_false cb hcb _ h
  · intro hn
    rw [hinv, hfst, hn]
    rfl

/-- C10, amended, at a concrete input: the sample face has characters 65, 66, 67; the
callback loads another font and reads a kerning each time it runs and returns `false` at 66,
so it is invoked at 65 and 66 only. -/
theorem LoadChars_walks_charmap_of_quiet_callback_witness :
    ∃ events s' h',
      LoadChars sampleFreeType sampleActive 0 loadingCallback 0 4 = some (events, s', h') ∧
      (invocations events, h')
        = ([(sampleSlot 1, 65, 1), (sampleSlot 2, 66, 2)], 2) :=
  match LoadChars_walks_charmap_of_quiet_callback sampleFreeType sampleActive
      ⟨1, ⟨1, 0, "Sans", "Regular", 1, [⟨0x756E6963, 3, 1⟩]⟩, 0⟩ 0 loadingCallback 0 3
      (fun k => sampleSlot (k + 1)) 4 (by decide)
      (fun _ _ _ _ call hc => by
        simp only [loadingCallback, List.mem_cons, List.mem_singleton, List.not_mem_nil,
          or_false] at hc
        rcases hc with rfl | rfl <;> rfl)
      (by decide) (by decide) (by decide) (by decide) with
  | ⟨events, s', h', h1, _, h2, _⟩ => ⟨events, s', h', h1, h2.trans (by decide)⟩

/-- C11. The code at two rejected loads that change the tables. With "Serif"/"Regular"
loaded and "Sans" unknown, loading a font whose face 0 is "Sans"/"Regular" and whose face 1 is
"Serif"/"Regular" stops at the duplicate with one record returned, and afterwards
"Sans"/"Regular" maps to a face and buffer 1 is recorded under "Sans". From the empty tables,
loading a font whose face 1 cannot be opened stops there, and afterwards "Sans"/"Regular"
maps to a face and buffer 0 is recorded under "Sans". -/
theorem rejected_load_changes_tables :
    ((loadedFace (run sampleFreeType State.initial [.LoadFontFromBytes [0x10]]).face_map
          "Serif" "Regular").isSome = true ∧
      (sampleFreeType.FT_New_Memory_Face [0x00, 0x10] 1).map
          (fun r => (r.family_name, r.style_name)) = some ("Serif", "Regular") ∧
      loadedFace (run sampleFreeType State.initial [.LoadFontFromBytes [0x10]]).face_map
          "Sans" "Regular" = none ∧
      buffersOf (run sampleFreeType State.initial [.LoadFontFromBytes [0x10]]).face_ptrs
          "Sans" = [] ∧
      (LoadFontFromBytes sampleFreeType
          (run sampleFreeType State.initial [.LoadFontFromBytes [0x10]])
          [0x00, 0x10]).1.length = 1 ∧
      loadedFace (LoadFontFromBytes sampleFreeType
          (run sampleFreeType State.initial [.LoadFontFromBytes [0x10]])
          [0x00, 0x10]).2.face_map "Sans" "Regular"
        = some ⟨3, ⟨2, 0, "Sans", "Regular", 1, [⟨0x756E6963, 3, 1⟩]⟩, 1⟩ ∧
      buffersOf (LoadFontFromBytes sampleFreeType
          (run sampleFreeType State.initial [.LoadFontFromBytes [0x10]])
          [0x00, 0x10]).2.face_ptrs "Sans" = [1]) ∧
    (sampleFreeType.FT_New_Memory_Face [0x00, 0xFF] 1 = none ∧
      loadedFace State.initial.face_map "Sans" "Regular" = none ∧
      State.initial.face_ptrs = [] ∧
      (LoadFontFromBytes sampleFreeType State.initial [0x00, 0xFF]).1.length = 1 ∧
      loadedFace (LoadFontFromBytes sampleFreeType State.initial [0x00, 0xFF]).2.face_map
          "Sans" "Regular"
        = some ⟨1, ⟨2, 0, "Sans", "Regular", 1, [⟨0x756E6963, 3, 1⟩]⟩, 0⟩ ∧
      (LoadFontFromBytes sampleFreeType State.initial [0x00, 0xFF]).2.face_ptrs
        = [("Sans", [0])]) := by
  decide

/-- C12. The code at an input where the iteration does not terminate. The active face has
the three characters 65, 66, 67 and character 66 fails to load under load flags 99: after
the failure the loop tests the same character again, so whatever number of loop tests is
allowed, `LoadChars` and `LoadCharsFrom` (from starting code 0) are still running. -/
theorem char_walk_never_returns_on_load_error (fuel : Nat) :
    sampleFreeType.FT_Load_Char ⟨1, ⟨1, 0, "Sans", "Regular", 1, [⟨0x756E6963, 3, 1⟩]⟩, 0⟩
        66 99 = none ∧
    LoadChars sampleFreeType sampleActive 99 sampleCallback 0 fuel = none ∧
    LoadCharsFrom sampleFreeType sampleActive 0 99 sampleCallback 0 fuel = none := by
  have hcur : sampleActive.current_face
      = some ⟨1, ⟨1, 0, "Sans", "Regular", 1, [⟨0x756E6963, 3, 1⟩]⟩, 0⟩ := by decide
  have hstuck := charLoop_load_error_never_returns sampleFreeType 99 sampleCallback
    sampleActive 66 2 (by decide) (by decide)
  have h65 : ∀ n, charLoop sampleFreeType 99 sampleCallback (n + 1) 65 1 sampleActive 0
      = none := by
    intro n
    have hload : loadChar sampleFreeType sampleActive.current_face 65 99
        = some (sampleSlot 1) := by decide
    have hcb : sampleCallback 0 (sampleSlot 1) 65 1 = (.undefined, 1, []) := by decide
    have hnext : getNextChar sampleFreeType sampleActive.current_face 65 = (66, 2) := by
      decide
    simp [charLoop, hload, hcb, JSVal.isFalse, run, hnext, hstuck]
  refine ⟨by decide, ?_, ?_⟩
  · cases fuel with
    | zero => simp [LoadChars, hcur, charLoop]
    | succ n =>
      have hfirst : sampleFreeType.FT_Get_First_Char
          ⟨1, ⟨1, 0, "Sans", "Regular", 1, [⟨0x756E6963, 3, 1⟩]⟩, 0⟩ = (65, 1) := by decide
      simp [LoadChars, hcur, hfirst, h65]
  · cases fuel with
    | zero => simp [LoadCharsFrom, hcur, charLoop]
    | succ n =>
      have hfrom : sampleFreeType.FT_Get_Next_Char
          ⟨1, ⟨1, 0, "Sans", "Regular", 1, [⟨0x756E6963, 3, 1⟩]⟩, 0⟩ 0 = (65, 1) := by decide
      simp [LoadCharsFrom, hcur, hfrom, h65]

end FreetypeWasm
